import Mathlib

/-!
Verification of the openslots scraper core: a shallow embedding of the
deduplication/merge engine (`tools/scraper/normalizers/dedup.py`,
`provider.py`), the key/hash utilities (`tools/scraper/utils/hash.py`),
the retrying HTTP client (`tools/scraper/utils/http.py`), the rate
limiter (`tools/scraper/config/rate_limits.py`) and the robots cache
(`tools/scraper/utils/robots.py`), together with proofs and refutations
of the specified properties.

Modelling conventions:
* Python `str` is modelled as `List Char` (`Str`); the inputs of interest
  are ASCII, so `str.lower()` is modelled as ASCII lowercasing and the
  regex classes `\s`/`\w` as their ASCII character sets.
* Python `float` arithmetic is modelled as exact rational arithmetic (`ℚ`).
* Python `dict` is modelled as an insertion-ordered association list with
  first-match lookup and in-place update (`dget?` / `dset`); `len` is the
  list length (dict keys are unique in every reachable state).
* Fallible Python code (KeyError on a missing dict key, TypeError on an
  `int`/`str` comparison) is modelled with `Except PyError`.
-/

namespace OpenSlots

/-- Python `str`, modelled as a list of characters. -/
abbrev Str := List Char

/-- ASCII lowercasing of one character, as `str.lower()` does on ASCII text. -/
def lowerChar (c : Char) : Char :=
  if 'A' ≤ c ∧ c ≤ 'Z' then Char.ofNat (c.toNat + 32) else c

/-- Python `str.lower()` on ASCII text. -/
def lower (s : Str) : Str := s.map lowerChar

/-- The ASCII whitespace class of Python's `str.strip()` and regex `\s`. -/
def isPySpace (c : Char) : Bool :=
  c = ' ' ∨ c = '\t' ∨ c = '\n' ∨ c = '\x0d' ∨ c = '\x0b' ∨ c = '\x0c'

/-- The ASCII word-character class of regex `\w`: letters, digits, underscore. -/
def isWordChar (c : Char) : Bool :=
  ('a' ≤ c ∧ c ≤ 'z') ∨ ('A' ≤ c ∧ c ≤ 'Z') ∨ ('0' ≤ c ∧ c ≤ '9') ∨ c = '_'

/-- Remove leading whitespace. -/
def trimLeft (s : Str) : Str := s.dropWhile isPySpace

/-- Remove trailing whitespace. -/
def trimRight (s : Str) : Str := (s.reverse.dropWhile isPySpace).reverse

/-- Python `str.strip()`: remove leading and trailing whitespace. -/
def trim (s : Str) : Str := trimRight (trimLeft s)

/-- Recursion core of `collapseWs`; the fuel (initially the length of the
string, which bounds the number of steps) keeps the recursion structural so
that concrete runs reduce definitionally. -/
def collapseWsGo : Nat → Str → Str
  | _, [] => []
  | 0, l => l
  | fuel + 1, c :: rest =>
    if isPySpace c then ' ' :: collapseWsGo fuel (rest.dropWhile isPySpace)
    else c :: collapseWsGo fuel rest

/-- Python `re.sub(r"\s+", " ", s)`: collapse every whitespace run to one space. -/
def collapseWs (s : Str) : Str := collapseWsGo s.length s

/-- Python `re.sub(r"[^\w\s]", "", s)`: keep only word characters and whitespace. -/
def filterWordSpace (s : Str) : Str :=
  s.filter (fun c => isWordChar c ∨ isPySpace c)

/-- Lexicographic strict comparison of Python strings (`s < t` by code point,
with a proper prefix comparing less). -/
def strLt : Str → Str → Bool
  | [], [] => false
  | [], _ :: _ => true
  | _ :: _, [] => false
  | a :: s, b :: t => if a < b then true else if b < a then false else strLt s t

/-! ## Insertion-ordered dictionaries (Python `dict`) -/

/-- First-match lookup in an association list, like `d[k]` / `d.get(k)`. -/
def dget? {α : Type} : List (Str × α) → Str → Option α
  | [], _ => none
  | (k', v) :: rest, k => if k' = k then some v else dget? rest k

/-- Update in place if the key is present (Python dict assignment), else
append the new binding at the end (insertion order). -/
def dset {α : Type} : List (Str × α) → Str → α → List (Str × α)
  | [], k, v => [(k, v)]
  | (k', v') :: rest, k, v =>
    if k' = k then (k, v) :: rest else (k', v') :: dset rest k v

/-- Python `k in d`. -/
def dcontains {α : Type} (d : List (Str × α)) (k : Str) : Bool :=
  (dget? d k).isSome

/-- Lookup with a default, as `collections.defaultdict` reads do. -/
def dgetD {α : Type} (d : List (Str × α)) (k : Str) (v : α) : α :=
  (dget? d k).getD v

/-! ## SHA-256 (`hashlib.sha256`), over naturals reduced mod `2^32` -/

/-- Addition of 32-bit words. -/
def add32 (a b : Nat) : Nat := (a + b) % 4294967296

/-- Bitwise complement of a 32-bit word. -/
def not32 (a : Nat) : Nat := 4294967295 - a

/-- Right rotation of a 32-bit word by `n` places. -/
def rotr32 (n a : Nat) : Nat := (a / 2 ^ n) + (a % 2 ^ n) * 2 ^ (32 - n)

/-- Logical right shift. -/
def shr32 (n a : Nat) : Nat := a / 2 ^ n

def sha256Ch (e f g : Nat) : Nat := (e &&& f) ^^^ (not32 e &&& g)

def sha256Maj (a b c : Nat) : Nat := (a &&& b) ^^^ (a &&& c) ^^^ (b &&& c)

def bigSigma0 (a : Nat) : Nat := rotr32 2 a ^^^ rotr32 13 a ^^^ rotr32 22 a

def bigSigma1 (e : Nat) : Nat := rotr32 6 e ^^^ rotr32 11 e ^^^ rotr32 25 e

def smallSigma0 (x : Nat) : Nat := rotr32 7 x ^^^ rotr32 18 x ^^^ shr32 3 x

def smallSigma1 (x : Nat) : Nat := rotr32 17 x ^^^ rotr32 19 x ^^^ shr32 10 x

/-- The SHA-256 round constants. -/
def sha256K : List Nat :=
  [1116352408, 1899447441, 3049323471, 3921009573, 961987163,
   1508970993, 2453635748, 2870763221, 3624381080, 310598401,
   607225278, 1426881987, 1925078388, 2162078206, 2614888103,
   3248222580, 3835390401, 4022224774, 264347078, 604807628,
   770255983, 1249150122, 1555081692, 1996064986, 2554220882,
   2821834349, 2952996808, 3210313671, 3336571891, 3584528711,
   113926993, 338241895, 666307205, 773529912, 1294757372,
   1396182291, 1695183700, 1986661051, 2177026350, 2456956037,
   2730485921, 2820302411, 3259730800, 3345764771, 3516065817,
   3600352804, 4094571909, 275423344, 430227734, 506948616,
   659060556, 883997877, 958139571, 1322822218, 1537002063,
   1747873779, 1955562222, 2024104815, 2227730452, 2361852424,
   2428436474, 2756734187, 3204031479, 3329325298]

/-- The eight working variables of the compression function. -/
structure Hash8 where
  a : Nat
  b : Nat
  c : Nat
  d : Nat
  e : Nat
  f : Nat
  g : Nat
  h : Nat

/-- The SHA-256 initial hash value. -/
def sha256H0 : Hash8 :=
  ⟨1779033703, 3144134277, 1013904242, 2773480762,
   1359893119, 2600822924, 528734635, 1541459225⟩

/-- One round of the SHA-256 compression function. -/
def sha256Round (st : Hash8) (kw : Nat × Nat) : Hash8 :=
  let t1 := (st.h + bigSigma1 st.e + sha256Ch st.e st.f st.g + kw.1 + kw.2) % 4294967296
  let t2 := (bigSigma0 st.a + sha256Maj st.a st.b st.c) % 4294967296
  ⟨(t1 + t2) % 4294967296, st.a, st.b, st.c,
   (st.d + t1) % 4294967296, st.e, st.f, st.g⟩

/-- Extend a 16-word message block to the 64-word schedule: append
`n` further words, each derived from the last sixteen. -/
def extendSchedule (w : List Nat) : Nat → List Nat
  | 0 => w
  | n + 1 =>
    let l := w.length
    let next := (smallSigma1 (w.getD (l - 2) 0) + w.getD (l - 7) 0 +
      smallSigma0 (w.getD (l - 15) 0) + w.getD (l - 16) 0) % 4294967296
    extendSchedule (w ++ [next]) n

/-- Big-endian 32-bit words from a byte list (the byte count is a
multiple of four for padded input). -/
def bytesToWords : List Nat → List Nat
  | b0 :: b1 :: b2 :: b3 :: rest =>
    (((b0 * 256 + b1) * 256 + b2) * 256 + b3) :: bytesToWords rest
  | _ => []

/-- Compress one 64-byte chunk into the running hash value. -/
def sha256Compress (hv : Hash8) (chunk : List Nat) : Hash8 :=
  let w := extendSchedule (bytesToWords chunk) 48
  let r := (sha256K.zip w).foldl sha256Round hv
  ⟨add32 hv.a r.a, add32 hv.b r.b, add32 hv.c r.c, add32 hv.d r.d,
   add32 hv.e r.e, add32 hv.f r.f, add32 hv.g r.g, add32 hv.h r.h⟩

/-- The big-endian `count`-byte encoding of `n`. -/
def natToBytesBE (count n : Nat) : List Nat :=
  (List.range count).map (fun i => n / 2 ^ (8 * (count - 1 - i)) % 256)

/-- SHA-256 padding: a `0x80` byte, zeros to 56 mod 64, then the 64-bit
big-endian bit length. -/
def sha256Pad (msg : List Nat) : List Nat :=
  let zeros := (64 + 56 - (msg.length + 1) % 64) % 64
  msg ++ [0x80] ++ List.replicate zeros 0 ++ natToBytesBE 8 (msg.length * 8)

/-- Recursion core of `chunks64`, fuelled by the list length. -/
def chunks64Go : Nat → List Nat → List (List Nat)
  | _, [] => []
  | 0, _ => []
  | fuel + 1, b :: rest =>
    ((b :: rest).take 64) :: chunks64Go fuel ((b :: rest).drop 64)

/-- Split a list into 64-element chunks. -/
def chunks64 (l : List Nat) : List (List Nat) := chunks64Go l.length l

/-- SHA-256 of a byte string, as the eight final hash words. -/
def sha256Words (msg : List Nat) : Hash8 :=
  (chunks64 (sha256Pad msg)).foldl sha256Compress sha256H0

/-- UTF-8 encoding of one character. -/
def utf8Char (c : Char) : List Nat :=
  let n := c.toNat
  if n < 0x80 then [n]
  else if n < 0x800 then [0xc0 + n / 64, 0x80 + n % 64]
  else if n < 0x10000 then
    [0xe0 + n / 4096, 0x80 + n / 64 % 64, 0x80 + n % 64]
  else
    [0xf0 + n / 262144, 0x80 + n / 4096 % 64, 0x80 + n / 64 % 64, 0x80 + n % 64]

/-- Python `s.encode("utf-8")`. -/
def utf8Encode (s : Str) : List Nat := (s.map utf8Char).flatten

/-- Lowercase hex digit for a value below 16. -/
def hexChar (n : Nat) : Char :=
  if n < 10 then Char.ofNat (48 + n) else Char.ofNat (87 + n)

/-- Two lowercase hex digits of one byte. -/
def byteToHex (b : Nat) : Str := [hexChar (b / 16), hexChar (b % 16)]

/-- The 32 digest bytes of a hash value. -/
def hash8Bytes (hv : Hash8) : List Nat :=
  ([hv.a, hv.b, hv.c, hv.d, hv.e, hv.f, hv.g, hv.h].map (natToBytesBE 4)).flatten

/-- Python `hashlib.sha256(s.encode()).hexdigest()`: the 64-character lowercase
hex digest of the UTF-8 encoding of `s`. -/
def sha256Hex (s : Str) : Str :=
  ((hash8Bytes (sha256Words (utf8Encode s))).map byteToHex).flatten

/-! ## `tools/scraper/utils/hash.py` -/

/-- The abbreviation table of `normalize_address`, pattern word to
replacement word. -/
def abbrevTable : List (Str × Str) :=
  [("street".toList, "st".toList),
   ("avenue".toList, "ave".toList),
   ("boulevard".toList, "blvd".toList),
   ("drive".toList, "dr".toList),
   ("road".toList, "rd".toList),
   ("lane".toList, "ln".toList),
   ("court".toList, "ct".toList),
   ("place".toList, "pl".toList),
   ("suite".toList, "ste".toList),
   ("apartment".toList, "apt".toList),
   ("north".toList, "n".toList),
   ("south".toList, "s".toList),
   ("east".toList, "e".toList),
   ("west".toList, "w".toList)]

/-- Replace one maximal word run by its abbreviation when it is a table
pattern. -/
def abbrevWord (w : Str) : Str := (dget? abbrevTable w).getD w

/-- Recursion core of `applyAbbrev`, fuelled by the string length. -/
def applyAbbrevGo : Nat → Str → Str
  | _, [] => []
  | 0, l => l
  | fuel + 1, c :: rest =>
    if isWordChar c then
      abbrevWord (c :: rest.takeWhile isWordChar) ++
        applyAbbrevGo fuel (rest.dropWhile isWordChar)
    else c :: applyAbbrevGo fuel rest

/-- The fourteen sequential `re.sub(r"\b<word>\b", abbr, s, IGNORECASE)`
passes of `normalize_address`, coalesced into one pass over maximal
`\w`-runs: on the already-lowercased input each pattern `\b<word>\b`
matches exactly the maximal word runs equal to `<word>`, the patterns are
pairwise distinct whole words, and no replacement word is itself a later
pattern or merges with its neighbours, so the sequential passes compute
this single word-run mapping. -/
def applyAbbrev (s : Str) : Str := applyAbbrevGo s.length s

/-- Python `normalize_address`: lowercase, strip, abbreviate common address
words, collapse whitespace runs. -/
def normalize_address (address : Str) : Str :=
  collapseWs (applyAbbrev (trim (lower address)))

/-- Python `generate_provider_key`: the first 16 hex characters of the SHA-256
digest of `normalized_name|normalized_address|normalized_city`, where the
name is lowercased, stripped of non-word non-space characters and
edge-trimmed, and the city is lowercased and edge-trimmed. -/
def generate_provider_key (name address city : Str) : Str :=
  let normalized_name := trim (filterWordSpace (lower name))
  let normalized_address := normalize_address address
  let normalized_city := trim (lower city)
  (sha256Hex (normalized_name ++ '|' :: normalized_address ++ '|' ::
    normalized_city)).take 16

/-! ## The record schema (`tools/scraper/schemas.py`)

Modelled from the spec: `schemas.py` itself is not among the provided
sources; the shape of `ScrapedProvider`, `ScrapedSource`, `ScrapedService`
and the enums is reconstructed from the spec's CandidateRecord data model
(§3), the constructor calls in `tests/test_schemas.py` and
`tests/test_normalizers.py`, and the field reads in `provider.py`.
Enum `.value` strings are the member names, as `tests/test_schemas.py`
pins for `ServiceCategory` and as the string keys of the priority table
in `ProviderNormalizer.merge` indicate for `SourceType`. -/

/-- Modelled from the spec: the source kinds of `SourceType`
(`sources/base.py` names WEBSITE, GOOGLE_MAPS and DIRECTORY). -/
inductive SourceType where
  | GOOGLE_MAPS
  | WEBSITE
  | DIRECTORY
deriving DecidableEq, Repr

/-- The `.value` string of a `SourceType` member. -/
def SourceType.value : SourceType → Str
  | .GOOGLE_MAPS => "GOOGLE_MAPS".toList
  | .WEBSITE => "WEBSITE".toList
  | .DIRECTORY => "DIRECTORY".toList

/-- Modelled from the spec: the closed category set (§6). -/
inductive ServiceCategory where
  | MASSAGE
  | ACUPUNCTURE
  | NAILS
  | HAIR
  | FACIALS_AND_SKIN
  | LASHES_AND_BROWS
deriving DecidableEq, Repr

/-- Modelled from the spec: one provenance entry (`ScrapedSource`). -/
structure ScrapedSource where
  type : SourceType
  url : Str
  fetched_at : ℚ
  raw_data_hash : Str
deriving DecidableEq, Repr

/-- Modelled from the spec: one service offering (`ScrapedService`). -/
structure ScrapedService where
  category : ServiceCategory
  name : Str
  description : Option Str
  base_price_cents : Option Nat
  duration_min : Option Nat
  add_ons : List Str
deriving DecidableEq, Repr

/-- Modelled from the spec: one scraped provider record
(`ScrapedProvider`), a Python dataclass with structural equality. -/
structure ScrapedProvider where
  name : Str
  address : Str
  city : Str
  state : Str
  zip_code : Str
  country : Str
  legal_name : Option Str
  website_url : Option Str
  latitude : Option ℚ
  longitude : Option ℚ
  phone : Option Str
  email : Option Str
  booking_url : Option Str
  services : List ScrapedService
  opening_hours : Option Str
  google_rating : Option ℚ
  google_review_count : Option Nat
  social_links : List Str
  sources : List ScrapedSource
  confidence : ℚ
deriving DecidableEq, Repr

/-- A provider with every optional field absent, for building concrete
records the way the tests do (dataclass defaults). -/
def baseProvider : ScrapedProvider where
  name := []
  address := []
  city := []
  state := []
  zip_code := []
  country := "US".toList
  legal_name := none
  website_url := none
  latitude := none
  longitude := none
  phone := none
  email := none
  booking_url := none
  services := []
  opening_hours := none
  google_rating := none
  google_review_count := none
  social_links := []
  sources := []
  confidence := 1

/-! ## Python truthiness and `or`-coalescing -/

/-- Python `a or b` for strings: an empty string is falsy. -/
def pyOrStr (a b : Str) : Str := if a.isEmpty then b else a

/-- Truthiness of an optional string (`None` and `""` are falsy). -/
def truthyOptStr : Option Str → Bool
  | none => false
  | some s => !s.isEmpty

/-- Python `a or b` for optional strings. -/
def pyOrOptStr (a b : Option Str) : Option Str :=
  if truthyOptStr a then a else b

/-- Truthiness of an optional float (`None` and `0.0` are falsy). -/
def truthyOptRat : Option ℚ → Bool
  | none => false
  | some q => decide (q ≠ 0)

/-- Python `a or b` for optional floats. -/
def pyOrOptRat (a b : Option ℚ) : Option ℚ :=
  if truthyOptRat a then a else b

/-- Truthiness of an optional int. -/
def truthyOptNat : Option Nat → Bool
  | none => false
  | some n => decide (n ≠ 0)

/-- Python `a or b` for optional ints. -/
def pyOrOptNat (a b : Option Nat) : Option Nat :=
  if truthyOptNat a then a else b

/-- Python `a or b` for lists: an empty list is falsy. -/
def pyOrList {α : Type} (a b : List α) : List α := if a.isEmpty then b else a

/-! ## `ProviderNormalizer.merge` (`tools/scraper/normalizers/provider.py`) -/

/-- Python exceptions that the modelled code can raise. -/
inductive PyError where
  | keyError
  | typeError
deriving DecidableEq, Repr

/-- A Python value that is either an `int` or a `str`, the two shapes the
priority computation in `merge` can produce. -/
inductive PyVal where
  | int (n : Nat)
  | str (s : Str)
deriving DecidableEq, Repr

/-- The key function of the priority `max`:
`{"GOOGLE_MAPS": 3, "WEBSITE": 2, "DIRECTORY": 1, "SEARCH": 0}.get(t, 0)`. -/
def priorityKeyVal (t : Str) : Nat :=
  (dget? [("GOOGLE_MAPS".toList, 3), ("WEBSITE".toList, 2),
    ("DIRECTORY".toList, 1), ("SEARCH".toList, 0)] t).getD 0

/-- Python `max(iterable, key=...)`: the first element attaining the
maximal key, or `none` on an empty iterable. -/
def maxByPriorityKey : List Str → Option Str
  | [] => none
  | x :: rest =>
    some (rest.foldl
      (fun acc y => if priorityKeyVal y > priorityKeyVal acc then y else acc) x)

/-- Python `max((s.type.value for s in sources), default=0, key=...)`: the `int`
default `0` for an empty provenance list, else the `.value` string of a
highest-priority source. -/
def sourcePriorityVal (sources : List ScrapedSource) : PyVal :=
  match maxByPriorityKey (sources.map (fun s => s.type.value)) with
  | none => .int 0
  | some v => .str v

/-- Python `>` on the priority values: `int > int` and `str > str`
(lexicographic) compare; comparing an `int` with a `str` raises
`TypeError`. -/
def pyGT : PyVal → PyVal → Except PyError Bool
  | .int a, .int b => .ok (decide (a > b))
  | .str a, .str b => .ok (strLt b a)
  | _, _ => .error .typeError

/-- Python `ProviderNormalizer.merge`: pick as base whichever record wins the
Python `>` comparison of the two priority values (note: the comparison is
between the `.value` strings picked by the key function, not between the
numeric priorities), then null-coalesce every field from base to
secondary, concatenate provenance, and take the max confidence. -/
def merge (existing new : ScrapedProvider) : Except PyError ScrapedProvider :=
  let existing_priority := sourcePriorityVal existing.sources
  let new_priority := sourcePriorityVal new.sources
  match pyGT new_priority existing_priority with
  | .error e => .error e
  | .ok gt =>
  let (base, secondary) := if gt then (new, existing) else (existing, new)
  .ok
    { name := pyOrStr base.name secondary.name
      address := pyOrStr base.address secondary.address
      city := pyOrStr base.city secondary.city
      state := pyOrStr base.state secondary.state
      zip_code := pyOrStr base.zip_code secondary.zip_code
      country := pyOrStr base.country secondary.country
      legal_name := pyOrOptStr base.legal_name secondary.legal_name
      website_url := pyOrOptStr base.website_url secondary.website_url
      latitude := pyOrOptRat base.latitude secondary.latitude
      longitude := pyOrOptRat base.longitude secondary.longitude
      phone := pyOrOptStr base.phone secondary.phone
      email := pyOrOptStr base.email secondary.email
      booking_url := pyOrOptStr base.booking_url secondary.booking_url
      services := pyOrList base.services secondary.services
      opening_hours := pyOrOptStr base.opening_hours secondary.opening_hours
      google_rating := pyOrOptRat base.google_rating secondary.google_rating
      google_review_count :=
        pyOrOptNat base.google_review_count secondary.google_review_count
      social_links := pyOrList base.social_links secondary.social_links
      sources := base.sources ++ secondary.sources
      confidence := max base.confidence secondary.confidence }

/-! ## `Deduplicator` (`tools/scraper/normalizers/dedup.py`) -/

/-- The deduplicator state: the canonical store keyed by identity key,
plus the phone and URL secondary indexes whose values are identity keys. -/
structure Dedup where
  index : List (Str × ScrapedProvider)
  phone_index : List (Str × Str)
  url_index : List (Str × Str)
deriving DecidableEq, Repr

/-- Python `Deduplicator.__init__`: all three indexes empty. -/
def Dedup.init : Dedup := ⟨[], [], []⟩

/-- Python `provider.phone and provider.phone in self._phone_index`, returning
the hit's stored identity key. -/
def phoneHitKey (st : Dedup) (p : ScrapedProvider) : Option Str :=
  match p.phone with
  | some ph => if ph.isEmpty then none else dget? st.phone_index ph
  | none => none

/-- Python `provider.website_url and provider.website_url in self._url_index`,
returning the hit's stored identity key. -/
def urlHitKey (st : Dedup) (p : ScrapedProvider) : Option Str :=
  match p.website_url with
  | some u => if u.isEmpty then none else dget? st.url_index u
  | none => none

/-- The new-provider branch of `add`: register under the identity key and,
when truthy, under phone and website URL. -/
def registerNew (st : Dedup) (key : Str) (p : ScrapedProvider) : Dedup where
  index := dset st.index key p
  phone_index :=
    match p.phone with
    | some ph => if ph.isEmpty then st.phone_index else dset st.phone_index ph key
    | none => st.phone_index
  url_index :=
    match p.website_url with
    | some u => if u.isEmpty then st.url_index else dset st.url_index u key
    | none => st.url_index

/-- The merge-into-existing step shared by the three duplicate branches of
`add`: look up `self._index[existing_key]` (KeyError when absent), merge,
store the merged record back under `existing_key`, return `(False, merged)`. -/
def mergeAt (st : Dedup) (existing_key : Str) (p : ScrapedProvider) :
    Except PyError (Bool × ScrapedProvider × Dedup) :=
  match dget? st.index existing_key with
  | some existing =>
    (merge existing p).map
      (fun m => (false, m, { st with index := dset st.index existing_key m }))
  | none => .error .keyError

/-- Python `Deduplicator.add`: exact identity-key match, else phone-index match,
else URL-index match (each merging in place), else insert as new. -/
def Dedup.add (st : Dedup) (p : ScrapedProvider) :
    Except PyError (Bool × ScrapedProvider × Dedup) :=
  let key := generate_provider_key p.name p.address p.city
  match dget? st.index key with
  | some _ => mergeAt st key p
  | none =>
    match phoneHitKey st p with
    | some existing_key => mergeAt st existing_key p
    | none =>
      match urlHitKey st p with
      | some existing_key => mergeAt st existing_key p
      | none => .ok (true, p, registerNew st key p)

/-- Python `DuplicateMatch`. -/
structure DuplicateMatch where
  provider : ScrapedProvider
  similarity_score : ℚ
  match_reasons : List Str
deriving DecidableEq, Repr

/-- Python `str.split()` with no argument: split on whitespace runs,
producing no empty tokens (recursion core, fuelled by length). -/
def splitWsGo : Nat → Str → List Str
  | _, [] => []
  | 0, _ => []
  | fuel + 1, c :: rest =>
    if isPySpace c then splitWsGo fuel rest
    else
      (c :: rest.takeWhile (fun d => !isPySpace d)) ::
        splitWsGo fuel (rest.dropWhile (fun d => !isPySpace d))

def splitWs (s : Str) : List Str := splitWsGo s.length s

/-- Python `Deduplicator._name_similarity`: token Jaccard similarity of the two
lowercased whitespace-split names (0 when either token set is empty). -/
def name_similarity (name1 name2 : Str) : ℚ :=
  let n1 := (splitWs (lower name1)).dedup
  let n2 := (splitWs (lower name2)).dedup
  if n1.isEmpty || n2.isEmpty then 0
  else
    ((n1.filter (fun t => t ∈ n2)).length : ℚ) /
      ((n1 ++ n2.filter (fun t => t ∉ n1)).length : ℚ)

/-- Stable insertion into a list sorted by descending score (the order
`sorted(..., reverse=True)` produces). -/
def insertByScoreDesc (m : DuplicateMatch) :
    List DuplicateMatch → List DuplicateMatch
  | [] => [m]
  | x :: rest =>
    if m.similarity_score ≥ x.similarity_score then m :: x :: rest
    else x :: insertByScoreDesc m rest

/-- Python `sorted(matches, key=lambda m: m.similarity_score, reverse=True)`. -/
def sortByScoreDesc (l : List DuplicateMatch) : List DuplicateMatch :=
  l.foldr insertByScoreDesc []

/-- Python `Deduplicator.find_duplicates`: an exact-key match alone, else phone
(0.9) and URL (0.85) index hits plus same-city fuzzy-name matches above
0.8, deduplicated by record and sorted by descending score. -/
def Dedup.find_duplicates (st : Dedup) (p : ScrapedProvider) :
    Except PyError (List DuplicateMatch) :=
  let key := generate_provider_key p.name p.address p.city
  match dget? st.index key with
  | some existing => .ok [⟨existing, 1, [("exact_key".toList)]⟩]
  | none => do
    let phoneMatches ←
      match phoneHitKey st p with
      | some existing_key =>
        match dget? st.index existing_key with
        | some existing =>
          pure [DuplicateMatch.mk existing (9 / 10) [("phone".toList)]]
        | none => Except.error PyError.keyError
      | none => pure ([] : List DuplicateMatch)
    let urlMatches ←
      match urlHitKey st p with
      | some existing_key =>
        match dget? st.index existing_key with
        | some existing =>
          pure
            (if phoneMatches.any (fun m => m.provider == existing) then []
             else [DuplicateMatch.mk existing (17 / 20) [("website".toList)]])
        | none => Except.error PyError.keyError
      | none => pure ([] : List DuplicateMatch)
    let foundMatches :=
      st.index.foldl
        (fun acc kv =>
          if lower kv.2.city = lower p.city then
            let sim := name_similarity p.name kv.2.name
            if sim > 4 / 5 then
              if acc.any (fun m => m.provider == kv.2) then acc
              else acc ++ [DuplicateMatch.mk kv.2 sim [("fuzzy_name".toList)]]
            else acc
          else acc)
        (phoneMatches ++ urlMatches)
    pure (sortByScoreDesc foundMatches)

/-- Python `Deduplicator.count`. -/
def Dedup.count (st : Dedup) : Nat := st.index.length

/-- Python `Deduplicator.clear`. -/
def Dedup.clear (_ : Dedup) : Dedup := ⟨[], [], []⟩

/-- Feed a list of records through `add` in order, keeping the final
state. -/
def Dedup.addAll : Dedup → List ScrapedProvider → Except PyError Dedup
  | st, [] => .ok st
  | st, p :: rest => do
    let r ← st.add p
    Dedup.addAll r.2.2 rest

/-! ## `RateLimiter` (`tools/scraper/config/rate_limits.py`)

Wall-clock reads (`time.time()`) are modelled by passing the two sampled
timestamps explicitly: `now` for the read before the wait computation and
`now2` for the read that is stored into `last_request` after the sleep.
`asyncio.sleep` is modelled by returning the list of performed sleep
durations. -/

/-- Python `RateLimitConfig`. -/
structure RateLimitConfig where
  requests_per_minute : ℚ
  daily_limit : Option Nat
  delay_between_requests : ℚ
deriving DecidableEq, Repr

/-- The module-level `RATE_LIMITS` table. -/
def RATE_LIMITS : List (Str × RateLimitConfig) :=
  [("google_places".toList, ⟨50, some 5000, 6 / 5⟩),
   ("website".toList, ⟨10, none, 2⟩),
   ("directory".toList, ⟨20, none, 1⟩)]

/-- Python `RATE_LIMITS.get(source_type, RATE_LIMITS["website"])`. -/
def lookupRateLimit (source_type : Str) : RateLimitConfig :=
  (dget? RATE_LIMITS source_type).getD ⟨10, none, 2⟩

/-- The module-level `BACKOFF_CONFIG` table. -/
structure BackoffConfig where
  initial_delay : ℚ
  max_delay : ℚ
  multiplier : ℚ
  max_retries : Nat
deriving DecidableEq, Repr

def BACKOFF_CONFIG : BackoffConfig := ⟨1, 60, 2, 5⟩

/-- The rate limiter's mutable state: per-domain last-request timestamps
and rolling/daily/failure counters (all `defaultdict`s reading 0). -/
structure RLState where
  last_request : List (Str × ℚ)
  request_counts : List (Str × Nat)
  daily_counts : List (Str × Nat)
  failure_counts : List (Str × Nat)
deriving DecidableEq, Repr

/-- Python `RateLimiter.__init__`. -/
def RLState.init : RLState := ⟨[], [], [], []⟩

/-- Python `RateLimiter.acquire` with the rate-limit table as a parameter (the
table is a mutable module-level dict in the source; `acquire` fixes it to
the shipped `RATE_LIMITS`). Returns `(raised, sleeps, state)`:
whether `RateLimitExceeded` was raised, the performed sleep durations,
and the resulting state (unchanged when the exception is raised). -/
def acquireWith (limits : Str → RateLimitConfig) (st : RLState)
    (source_type domain : Str) (now now2 : ℚ) : Bool × List ℚ × RLState :=
  let config := limits source_type
  let quota : Bool :=
    match config.daily_limit with
    | some l => decide (l ≠ 0) && decide (dgetD st.daily_counts source_type 0 ≥ l)
    | none => false
  if quota then (true, [], st)
  else
    let last := dgetD st.last_request domain 0
    let min_interval := 60 / config.requests_per_minute
    let failure_count := dgetD st.failure_counts domain 0
    let min_interval :=
      if failure_count > 0 then
        max min_interval
          (min (BACKOFF_CONFIG.initial_delay *
            BACKOFF_CONFIG.multiplier ^ failure_count) BACKOFF_CONFIG.max_delay)
      else min_interval
    let min_interval := max min_interval config.delay_between_requests
    let elapsed := now - last
    let sleeps := if elapsed < min_interval then [min_interval - elapsed] else []
    (false, sleeps,
      { st with
        last_request := dset st.last_request domain now2
        request_counts :=
          dset st.request_counts domain (dgetD st.request_counts domain 0 + 1)
        daily_counts :=
          dset st.daily_counts source_type
            (dgetD st.daily_counts source_type 0 + 1) })

/-- Python `RateLimiter.acquire` with the shipped `RATE_LIMITS` table. -/
def acquire (st : RLState) (source_type domain : Str) (now now2 : ℚ) :
    Bool × List ℚ × RLState :=
  acquireWith lookupRateLimit st source_type domain now now2

/-- Python `RateLimiter.record_success`. -/
def record_success (st : RLState) (domain : Str) : RLState :=
  { st with failure_counts := dset st.failure_counts domain 0 }

/-- Python `RateLimiter.record_failure`. -/
def record_failure (st : RLState) (domain : Str) : RLState :=
  { st with
    failure_counts :=
      dset st.failure_counts domain (dgetD st.failure_counts domain 0 + 1) }

/-- Total time slept by one `acquire` call. -/
def totalSleep (sleeps : List ℚ) : ℚ := sleeps.foldl (· + ·) 0

/-! ## `HttpClient.get` (`tools/scraper/utils/http.py`)

The network is modelled as a function from the attempt number to that
attempt's outcome. `RateLimiter.acquire` inside the loop only delays the
request (its `RateLimitExceeded` is outside this model's scenarios, which
use quota-free source types), and `record_success`/`record_failure` only
feed the limiter's failure counters, so the limiter interaction is
modelled by counting those calls. -/

/-- What one attempt's `session.get` does: return a response, or raise
`asyncio.TimeoutError` or `aiohttp.ClientError`. -/
inductive AttemptOutcome where
  | response (status : Nat) (content : Str)
  | timeoutError
  | clientError
deriving DecidableEq, Repr

/-- The `HttpResponse` wrapper (the fields the control flow reads). -/
structure HttpResponseM where
  status : Nat
  content : Str
deriving DecidableEq, Repr

/-- Python `HttpResponse.ok`: `200 <= status < 300`. -/
def HttpResponseM.ok (r : HttpResponseM) : Bool :=
  decide (200 ≤ r.status) && decide (r.status < 300)

/-- Observable calls made during one `HttpClient.get`: attempts begun,
`record_success` calls, `record_failure` calls, inter-retry sleeps. -/
structure GetCalls where
  attempts : Nat
  successes : Nat
  failures : Nat
  sleeps : List Nat
deriving DecidableEq, Repr

def GetCalls.init : GetCalls := ⟨0, 0, 0, []⟩

/-- The `for attempt in range(self.max_retries)` loop of
`HttpClient.get`: a received response is classified by `response.ok`
(calling `record_success` or `record_failure`) and returned either way;
a timeout or client error calls `record_failure`, sleeps `2 ** attempt`
unless this was the last attempt, and retries; an exhausted loop raises
`HttpError`. -/
def getLoop (server : Nat → AttemptOutcome) :
    Nat → Nat → GetCalls → Except Unit HttpResponseM × GetCalls
  | 0, _, calls => (.error (), calls)
  | remaining + 1, attempt, calls =>
    let calls := { calls with attempts := calls.attempts + 1 }
    match server attempt with
    | .response status content =>
      let resp : HttpResponseM := ⟨status, content⟩
      if resp.ok then
        (.ok resp, { calls with successes := calls.successes + 1 })
      else
        (.ok resp, { calls with failures := calls.failures + 1 })
    | .timeoutError | .clientError =>
      let calls := { calls with failures := calls.failures + 1 }
      let calls :=
        if remaining > 0 then { calls with sleeps := calls.sleeps ++ [2 ^ attempt] }
        else calls
      getLoop server remaining (attempt + 1) calls

/-- Python `HttpClient.get` for a given `max_retries`. -/
def httpGet (server : Nat → AttemptOutcome) (max_retries : Nat) :
    Except Unit HttpResponseM × GetCalls :=
  getLoop server max_retries 0 GetCalls.init

/-! ## `RobotsChecker` (`tools/scraper/utils/robots.py`) -/

/-- The slice of `urllib.robotparser.RobotFileParser` state the checker
uses: the `allow_all` flag set on non-200/error, and the parsed content
otherwise. The parser's allow/deny evaluation on parsed content is a
stdlib collaborator and is abstracted as a `decision` parameter of
`canFetch`. -/
structure RobotsParserM where
  allow_all : Bool
  content : Option Str
deriving DecidableEq, Repr

/-- Python `RobotsCacheEntry`. -/
structure RobotsCacheEntry where
  parser : RobotsParserM
  fetched_at : ℚ
  crawl_delay : Option ℚ
deriving DecidableEq, Repr

/-- The checker's state: the in-memory cache and the durable disk cache
(content plus file mtime, keyed by domain). -/
structure RobotsState where
  cache : List (Str × RobotsCacheEntry)
  disk : List (Str × (Str × ℚ))
deriving DecidableEq, Repr

def RobotsState.init : RobotsState := ⟨[], []⟩

/-- What the network returns for a domain's robots.txt fetch. -/
inductive NetOutcome where
  | ok200 (content : Str)
  | non200 (status : Nat)
  | netError
deriving DecidableEq, Repr

/-- Python `str.splitlines()` on `\n`-separated text (recursion core). -/
def splitLinesGo : Nat → Str → List Str
  | _, [] => []
  | 0, l => [l]
  | fuel + 1, l =>
    let line := l.takeWhile (fun c => decide (c ≠ '\n'))
    match l.dropWhile (fun c => decide (c ≠ '\n')) with
    | [] => [line]
    | _ :: tail => line :: splitLinesGo fuel tail

def splitLines (s : Str) : List Str := splitLinesGo s.length s

/-- The value of a digit string. -/
def digitsVal (s : Str) : Nat := s.foldl (fun acc c => acc * 10 + (c.toNat - 48)) 0

/-- Python `float()` on plain decimal literals (optional sign, digits,
optional fraction), the shapes a robots `crawl-delay` line carries;
anything else is a `ValueError` (`none`). -/
def parseFloat? (s : Str) : Option ℚ :=
  let (sign, t) : ℚ × Str :=
    match s with
    | '-' :: r => (-1, r)
    | '+' :: r => (1, r)
    | _ => (1, s)
  let ip := t.takeWhile Char.isDigit
  match t.drop ip.length with
  | [] => if ip.isEmpty then none else some (sign * digitsVal ip)
  | '.' :: fr =>
    if fr.all Char.isDigit then
      if ip.isEmpty && fr.isEmpty then none
      else some (sign * ((digitsVal ip : ℚ) + digitsVal fr / 10 ^ fr.length))
    else none
  | _ => none

/-- The crawl-delay extraction loop shared by `_load_from_disk` and
`_fetch_robots`: scan the lines, keep the last successfully parsed
`crawl-delay:` value, ignore `ValueError`s. -/
def parseCrawlDelay (content : Str) : Option ℚ :=
  (splitLines content).foldl
    (fun acc line =>
      if ("crawl-delay:".toList).isPrefixOf (lower line) then
        match parseFloat? (trim ((line.dropWhile (fun c => decide (c ≠ ':'))).drop 1)) with
        | some q => some q
        | none => acc
      else acc)
    none

/-- Python `_get_domain` / `urlparse(url).netloc`: the host part between
`://` and the next `/` (empty when the URL has no scheme part). -/
def dropSchemeGo : Nat → Str → Str
  | _, [] => []
  | 0, l => l
  | fuel + 1, c :: rest =>
    if ("://".toList).isPrefixOf (c :: rest) then (c :: rest).drop 3
    else dropSchemeGo fuel rest

def urlDomain (url : Str) : Str :=
  (dropSchemeGo url.length url).takeWhile (fun c => decide (c ≠ '/'))

/-- Python `_load_from_disk`: a disk entry whose mtime is within the TTL yields
a parsed entry stamped with the mtime; a stale or missing file yields
nothing (read errors are modelled as absent files). -/
def load_from_disk (ttl : ℚ) (st : RobotsState) (domain : Str) (now : ℚ) :
    Option RobotsCacheEntry :=
  match dget? st.disk domain with
  | none => none
  | some (content, mtime) =>
    if now - mtime > ttl then none
    else some ⟨⟨false, some content⟩, mtime, parseCrawlDelay content⟩

/-- Python `_fetch_robots`: on HTTP 200 save the body to disk and parse it; on
any other status or a network error produce an `allow_all` parser. The
entry is stamped with the fetch time. -/
def fetch_robots (net : Str → NetOutcome) (st : RobotsState) (domain : Str)
    (now : ℚ) : RobotsCacheEntry × RobotsState :=
  match net domain with
  | .ok200 content =>
    (⟨⟨false, some content⟩, now, parseCrawlDelay content⟩,
      { st with disk := dset st.disk domain (content, now) })
  | .non200 _ => (⟨⟨true, none⟩, now, none⟩, st)
  | .netError => (⟨⟨true, none⟩, now, none⟩, st)

/-- The memory-cache-miss path of `_get_entry`: disk cache, then network
fetch; every path caches its entry in memory. (`_fetch_robots` never
returns `None`, so the source's final allow-all fallback is
unreachable.) Returns the entry, the new state, and the number of
network fetches performed. -/
def getEntryMiss (net : Str → NetOutcome) (ttl : ℚ) (st : RobotsState)
    (domain : Str) (now : ℚ) : RobotsCacheEntry × RobotsState × Nat :=
  match load_from_disk ttl st domain now with
  | some entry => (entry, { st with cache := dset st.cache domain entry }, 0)
  | none =>
    let r := fetch_robots net st domain now
    (r.1, { r.2 with cache := dset r.2.cache domain r.1 }, 1)

/-- Python `_get_entry`: the memory cache answers when its entry is younger than
the TTL; otherwise fall through to disk and network. -/
def getEntry (net : Str → NetOutcome) (ttl : ℚ) (st : RobotsState)
    (url : Str) (now : ℚ) : RobotsCacheEntry × RobotsState × Nat :=
  let domain := urlDomain url
  match dget? st.cache domain with
  | some entry =>
    if now - entry.fetched_at < ttl then (entry, st, 0)
    else getEntryMiss net ttl st domain now
  | none => getEntryMiss net ttl st domain now

/-- Python `can_fetch`: `True` unconditionally when robots compliance is off;
otherwise resolve the entry and ask its parser (`allow_all` permits
everything; parsed content is judged by the abstracted stdlib
`decision`). -/
def canFetch (net : Str → NetOutcome) (decision : Str → Str → Str → Bool)
    (respect_robots_txt : Bool) (agent : Str) (ttl : ℚ) (st : RobotsState)
    (url : Str) (now : ℚ) : Bool × RobotsState × Nat :=
  if !respect_robots_txt then (true, st, 0)
  else
    let r := getEntry net ttl st url now
    (if r.1.parser.allow_all then true
     else
       match r.1.parser.content with
       | some c => decision c agent url
       | none => true,
     r.2.1, r.2.2)

/-- The spec's backoff formula: `backoff(n) = min(maxDelay,
initialDelay × multiplier^n)` for `n > 0`, else 0 (spec-side definition,
written from the spec's words for comparison with the code). -/
def specBackoff (n : Nat) : ℚ :=
  if 0 < n then
    min BACKOFF_CONFIG.max_delay
      (BACKOFF_CONFIG.initial_delay * BACKOFF_CONFIG.multiplier ^ n)
  else 0

/-- The spec's interval formula: `minInterval =
max(60/requestsPerMinute, configuredDelay, backoff(failureCount))`
(spec-side definition). -/
def specMinInterval (config : RateLimitConfig) (n : Nat) : ℚ :=
  max (60 / config.requests_per_minute)
    (max config.delay_between_requests (specBackoff n))

/-- The quota condition that makes `acquireWith` raise. -/
def quotaHit (limits : Str → RateLimitConfig) (st : RLState) (kind : Str) : Prop :=
  match (limits kind).daily_limit with
  | some l => l ≠ 0 ∧ l ≤ dgetD st.daily_counts kind 0
  | none => False

instance (limits : Str → RateLimitConfig) (st : RLState) (kind : Str) :
    Decidable (quotaHit limits st kind) := by
  unfold quotaHit
  split <;> infer_instance

/-- The interval `acquire` computes step by step, as one expression. -/
def codeMinInterval (config : RateLimitConfig) (failure_count : Nat) : ℚ :=
  max
    (if failure_count > 0 then
      max (60 / config.requests_per_minute)
        (min (BACKOFF_CONFIG.initial_delay *
          BACKOFF_CONFIG.multiplier ^ failure_count) BACKOFF_CONFIG.max_delay)
    else 60 / config.requests_per_minute)
    config.delay_between_requests

/-- The configuration of the spec's scenario B: `requestsPerMinute = 60`
(so a one-second base interval), no daily limit, one-second configured
delay, with the shipped backoff defaults. -/
def scenarioBConfig : RateLimitConfig := ⟨60, none, 1⟩

/-- The state scenario B reaches: a fresh limiter, one `acquire` for
domain x.com finishing at time `t`, then one `record_failure` on x.com. -/
def scenarioBState (t : ℚ) : RLState :=
  record_failure
    (acquireWith (fun _ => scenarioBConfig) RLState.init
      ("api".toList) ("x.com".toList) t t).2.2
    ("x.com".toList)

/-- A copy of the limiter state with `failureCount[domain]` set to `n`
and everything else unchanged. -/
def setFailures (st : RLState) (domain : Str) (n : Nat) : RLState :=
  { st with failure_counts := dset st.failure_counts domain n }

/-! ## C2: the merge base selection versus SourcePriority -/

/-- The spec's SourcePriority ranking: map-API highest, website mid,
directory/search lowest (spec-side definition; it coincides with the
numeric values of the priority-key table in `merge`). -/
def specSourcePriority : SourceType → Nat
  | .GOOGLE_MAPS => 3
  | .WEBSITE => 2
  | .DIRECTORY => 1

/-- A record's maximum SourcePriority over its provenance entries. -/
def maxSourcePriority (p : ScrapedProvider) : Nat :=
  (p.sources.map (fun s => specSourcePriority s.type)).foldl max 0

/-- A record seen by a website source. -/
def mergeBugExisting : ScrapedProvider :=
  { baseProvider with
    name := "Existing Spa".toList
    address := "123 Main St".toList
    city := "Miami".toList
    sources := [⟨.WEBSITE, "https://spa.example.com".toList, 0, "aaaa".toList⟩] }

/-- The same business seen by the map-API source, with a strictly higher
SourcePriority. -/
def mergeBugIncoming : ScrapedProvider :=
  { baseProvider with
    name := "Incoming Spa".toList
    address := "123 Main St".toList
    city := "Miami".toList
    sources := [⟨.GOOGLE_MAPS, "https://maps.example.com/p1".toList, 0,
      "bbbb".toList⟩] }

/-! ## C9 and C10: Deduplicator index consistency and counting -/

/-- The index-consistency invariant: every identity key stored as a value
of the phone index or of the URL index is a key of the main store. -/
def DedupInv (st : Dedup) : Prop :=
  (∀ ph k, dget? st.phone_index ph = some k → dcontains st.index k) ∧
  (∀ u k, dget? st.url_index u = some k → dcontains st.index k)

/-! ## C1: the phone/URL merge branches and scenario A -/

/-- Scenario A record 1. -/
def scenarioA1 : ScrapedProvider :=
  { baseProvider with
    name := "Test Spa".toList
    address := "123 Main St".toList
    city := "Miami".toList
    state := "FL".toList
    zip_code := "33101".toList }

/-- Scenario A record 2: same business, different casing, with a phone. -/
def scenarioA2 : ScrapedProvider :=
  { scenarioA1 with
    name := "TEST SPA".toList
    address := "123 MAIN ST".toList
    city := "MIAMI".toList
    phone := some ("+13051234567".toList) }

/-- Scenario A record 3: different name and address, same phone. -/
def scenarioA3 : ScrapedProvider :=
  { scenarioA1 with
    name := "Test Spa Wellness".toList
    address := "456 Other St".toList
    phone := some ("+13051234567".toList) }

/-- A record with a phone, registered as new. -/
def phoneDup1 : ScrapedProvider :=
  { scenarioA1 with phone := some ("+13051234567".toList) }

/-- A different business record carrying the same phone. -/
def phoneDup2 : ScrapedProvider :=
  { baseProvider with
    name := "Test Spa (New Name)".toList
    address := "456 Other St".toList
    city := "Miami".toList
    state := "FL".toList
    zip_code := "33102".toList
    phone := some ("+13051234567".toList) }

/-- The state after registering `phoneDup1` in a fresh deduplicator. -/
def c1WitnessState : Dedup :=
  registerNew Dedup.init
    (generate_provider_key phoneDup1.name phoneDup1.address phoneDup1.city)
    phoneDup1

/-! ## C4: identity keys under casing and whitespace differences -/

/-- A record whose name carries a double space. -/
def c4DoubleSpace : ScrapedProvider :=
  { baseProvider with
    name := "Test  Spa".toList
    address := "123 Main St".toList
    city := "Miami".toList
    state := "FL".toList
    zip_code := "33101".toList }

/-- The same record with a single space in the name. -/
def c4SingleSpace : ScrapedProvider :=
  { c4DoubleSpace with name := "Test Spa".toList }

theorem dget?_dset_self {α : Type} (d : List (Str × α)) (k : Str) (v : α) :
    dget? (dset d k v) k = some v := by
  induction d with
  | nil => simp [dset, dget?]
  | cons p rest ih =>
    obtain ⟨k', v'⟩ := p
    by_cases h : k' = k <;> simp [dset, dget?, h, ih]

theorem dget?_dset_ne {α : Type} (d : List (Str × α)) (k k' : Str) (v : α)
    (h : k ≠ k') : dget? (dset d k v) k' = dget? d k' := by
  induction d with
  | nil => simp [dset, dget?, h]
  | cons p rest ih =>
    obtain ⟨k₀, v₀⟩ := p
    by_cases h₀ : k₀ = k
    · subst h₀; simp [dset, dget?, h]
    · simp [dset, dget?, h₀]
      by_cases h₁ : k₀ = k' <;> simp [h₁, ih]

theorem length_dset_of_contains {α : Type} (d : List (Str × α)) (k : Str)
    (v : α) (h : dcontains d k) : (dset d k v).length = d.length := by
  induction d with
  | nil => simp [dcontains, dget?] at h
  | cons p rest ih =>
    obtain ⟨k', v'⟩ := p
    by_cases h' : k' = k
    · simp [dset, h']
    · simp [dcontains, dget?, h'] at h
      simp [dset, h', ih h]

theorem length_dset_of_not_contains {α : Type} (d : List (Str × α)) (k : Str)
    (v : α) (h : ¬ dcontains d k) : (dset d k v).length = d.length + 1 := by
  induction d with
  | nil => simp [dset]
  | cons p rest ih =>
    obtain ⟨k', v'⟩ := p
    by_cases h' : k' = k
    · exact absurd (by simp [dcontains, dget?, h']) h
    · simp only [dcontains, dget?, h', if_false] at h
      simp [dset, h', ih h]

theorem dcontains_dset {α : Type} (d : List (Str × α)) (k k' : Str) (v : α) :
    dcontains (dset d k v) k' = (dcontains d k' ∨ k = k') := by
  by_cases h : k = k'
  · subst h; simp [dcontains, dget?_dset_self]
  · simp [dcontains, dget?_dset_ne d k k' v h, h]

theorem dcontains_of_dget?_eq_some {α : Type} {d : List (Str × α)} {k : Str}
    {v : α} (h : dget? d k = some v) : dcontains d k := by
  simp [dcontains, h]

/-! ## Shared facts about the rate-limit table -/

theorem lookupRateLimit_cases (kind : Str) :
    lookupRateLimit kind = ⟨50, some 5000, 6 / 5⟩ ∨
    lookupRateLimit kind = ⟨10, none, 2⟩ ∨
    lookupRateLimit kind = ⟨20, none, 1⟩ := by
  simp only [lookupRateLimit, RATE_LIMITS, dget?]
  split_ifs <;> simp

theorem dgetD_dset_self {α : Type} (d : List (Str × α)) (k : Str) (v w : α) :
    dgetD (dset d k v) k w = v := by
  simp [dgetD, dget?_dset_self]

/-- The sleep performed by `acquire`'s final branch, as a single value. -/
theorem totalSleep_branch (mi e : ℚ) :
    totalSleep (if e < mi then [mi - e] else []) = max 0 (mi - e) := by
  rcases lt_or_le e mi with h | h
  · rw [if_pos h, max_eq_right (by linarith)]
    simp [totalSleep]
  · rw [if_neg (not_lt.mpr h), max_eq_left (by linarith)]
    simp [totalSleep]

theorem acquireWith_raised (limits : Str → RateLimitConfig)
    (st : RLState) (kind domain : Str) (now now2 : ℚ)
    (h : quotaHit limits st kind) :
    acquireWith limits st kind domain now now2 = (true, [], st) := by
  simp only [acquireWith]
  split
  · rfl
  · next hq =>
    exfalso
    rcases hd : (limits kind).daily_limit with _ | l <;>
      simp [quotaHit, hd] at h hq
    omega

theorem acquireWith_not_raised (limits : Str → RateLimitConfig)
    (st : RLState) (kind domain : Str) (now now2 : ℚ)
    (h : ¬ quotaHit limits st kind) :
    acquireWith limits st kind domain now now2 =
      (false,
        (if now - dgetD st.last_request domain 0 <
            codeMinInterval (limits kind) (dgetD st.failure_counts domain 0) then
          [codeMinInterval (limits kind) (dgetD st.failure_counts domain 0) -
            (now - dgetD st.last_request domain 0)]
        else []),
        { st with
          last_request := dset st.last_request domain now2
          request_counts :=
            dset st.request_counts domain (dgetD st.request_counts domain 0 + 1)
          daily_counts :=
            dset st.daily_counts kind (dgetD st.daily_counts kind 0 + 1) }) := by
  simp only [acquireWith]
  split
  · next hq =>
    exfalso
    rcases hd : (limits kind).daily_limit with _ | l <;>
      simp [quotaHit, hd] at h hq
    omega
  · rfl

/-- The code's step-by-step interval equals the spec's three-way max,
whenever the configured delay is nonnegative. -/
theorem codeMinInterval_eq_spec (config : RateLimitConfig) (n : Nat)
    (hd : 0 ≤ config.delay_between_requests) :
    codeMinInterval config n = specMinInterval config n := by
  unfold codeMinInterval
  rcases Nat.eq_zero_or_pos n with h | h
  · subst h
    simp [specMinInterval, specBackoff, max_eq_left hd]
  · rw [if_pos h]
    simp only [specMinInterval, specBackoff, if_pos h, min_comm]
    rw [max_assoc, max_comm config.delay_between_requests]

/-- C5: `RateLimiter.acquire` raises `RateLimitExceeded` exactly when the
source kind's configuration carries a daily limit and the kind's daily
count has reached it; the check precedes any sleep and a raising call
performs no sleep and leaves every counter and timestamp unchanged. -/
theorem acquire_quota_exact (st : RLState) (kind domain : Str) (now now2 : ℚ) :
    ((acquire st kind domain now now2).1 = true ↔
      ∃ l, (lookupRateLimit kind).daily_limit = some l ∧
        l ≤ dgetD st.daily_counts kind 0) ∧
    ((acquire st kind domain now now2).1 = true →
      (acquire st kind domain now now2).2.1 = [] ∧
      (acquire st kind domain now now2).2.2 = st) := by
  rcases lookupRateLimit_cases kind with h | h | h <;>
    simp only [acquire, acquireWith, h] <;>
    [skip; simp; simp]
  by_cases hq : (5000 : Nat) ≤ dgetD st.daily_counts kind 0
  · simp [hq]
  · simp [hq]

/-- C5 witness: a state whose google_places daily count sits at the
limit makes `acquire` raise, sleep nothing and change nothing. -/
theorem acquire_quota_exact_witness :
    (acquire ⟨[], [], [(("google_places".toList), 5000)], []⟩
      ("google_places".toList) ("x.com".toList) 0 0).1 = true ∧
    (acquire ⟨[], [], [(("google_places".toList), 5000)], []⟩
      ("google_places".toList) ("x.com".toList) 0 0).2.1 = [] ∧
    (acquire ⟨[], [], [(("google_places".toList), 5000)], []⟩
      ("google_places".toList) ("x.com".toList) 0 0).2.2 =
      ⟨[], [], [(("google_places".toList), 5000)], []⟩ := by
  have h := acquire_quota_exact ⟨[], [], [(("google_places".toList), 5000)], []⟩
    ("google_places".toList) ("x.com".toList) 0 0
  have hr : (acquire ⟨[], [], [(("google_places".toList), 5000)], []⟩
      ("google_places".toList) ("x.com".toList) 0 0).1 = true :=
    h.1.mpr ⟨5000, by decide, by decide⟩
  exact ⟨hr, h.2 hr⟩

theorem specMinInterval_mono (config : RateLimitConfig) {n m : Nat}
    (hnm : n ≤ m) : specMinInterval config n ≤ specMinInterval config m := by
  unfold specMinInterval
  refine max_le_max (le_refl _) (max_le_max (le_refl _) ?_)
  unfold specBackoff
  by_cases hm : 0 < m
  · rcases Nat.eq_zero_or_pos n with h0 | h0
    · rw [if_neg (by omega), if_pos hm]
      refine le_min (by norm_num [BACKOFF_CONFIG]) ?_
      rw [show BACKOFF_CONFIG.initial_delay = 1 from rfl, one_mul]
      refine pow_nonneg (by norm_num [BACKOFF_CONFIG]) m
    · rw [if_pos h0, if_pos hm]
      refine min_le_min (le_refl _) ?_
      refine mul_le_mul_of_nonneg_left ?_ (by norm_num [BACKOFF_CONFIG])
      exact pow_le_pow_right₀ (by norm_num [BACKOFF_CONFIG]) hnm
  · have hn : n = 0 := by omega
    have hm0 : m = 0 := by omega
    subst hn; subst hm0; exact le_refl _

theorem specMinInterval_le_sixty (kind : Str) (n : Nat) :
    specMinInterval (lookupRateLimit kind) n ≤ 60 := by
  have hb : specBackoff n ≤ 60 := by
    unfold specBackoff
    split
    · exact le_trans (min_le_left _ _) (by norm_num [BACKOFF_CONFIG])
    · norm_num
  rcases lookupRateLimit_cases kind with h | h | h <;> rw [h] <;>
    exact max_le (by norm_num) (max_le (by norm_num) hb)

/-- C6: when the quota is not exceeded, `acquire` sleeps exactly
`max(0, minInterval − (now − lastRequest[domain]))` for
`minInterval = max(60/requestsPerMinute, configuredDelay,
backoff(failureCount))`, then stores `now` into `lastRequest[domain]` and
increments `requestCount[domain]` and `dailyCount[sourceKind]`; and in
scenario B (requestsPerMinute=60, configured delay 1, defaults
initialDelay=1.0 and multiplier=2.0) an acquire issued immediately after
one `record_failure` on the same domain waits at least 2 seconds. -/
theorem acquire_wait_formula :
    (∀ (st : RLState) (kind domain : Str) (now now2 : ℚ),
      (acquire st kind domain now now2).1 = false →
        totalSleep (acquire st kind domain now now2).2.1 =
          max 0 (specMinInterval (lookupRateLimit kind)
            (dgetD st.failure_counts domain 0) -
            (now - dgetD st.last_request domain 0)) ∧
        (acquire st kind domain now now2).2.2 =
          { st with
            last_request := dset st.last_request domain now2
            request_counts :=
              dset st.request_counts domain (dgetD st.request_counts domain 0 + 1)
            daily_counts :=
              dset st.daily_counts kind (dgetD st.daily_counts kind 0 + 1) }) ∧
    (∀ t : ℚ,
      2 ≤ totalSleep (acquireWith (fun _ => scenarioBConfig) (scenarioBState t)
        ("api".toList) ("x.com".toList) t t).2.1) := by
  constructor
  · intro st kind domain now now2 hfalse
    have hd : 0 ≤ (lookupRateLimit kind).delay_between_requests := by
      rcases lookupRateLimit_cases kind with h | h | h <;> rw [h] <;> norm_num
    have hq : ¬ quotaHit lookupRateLimit st kind := by
      intro hq
      rw [acquire, acquireWith_raised lookupRateLimit st kind domain now now2 hq]
        at hfalse
      simp at hfalse
    rw [acquire, acquireWith_not_raised lookupRateLimit st kind domain now now2 hq]
    refine ⟨?_, rfl⟩
    rw [totalSleep_branch, codeMinInterval_eq_spec _ _ hd]
  · intro t
    have hq : ¬ quotaHit (fun _ => scenarioBConfig) (scenarioBState t)
        ("api".toList) := by simp [quotaHit, scenarioBConfig]
    rw [acquireWith_not_raised _ _ _ _ _ _ hq]
    have hst : scenarioBState t =
        ⟨[(("x.com".toList), t)], [(("x.com".toList), 1)],
          [(("api".toList), 1)], [(("x.com".toList), 1)]⟩ := by
      have hq0 : ¬ quotaHit (fun _ => scenarioBConfig) RLState.init
          ("api".toList) := by simp [quotaHit, scenarioBConfig]
      rw [scenarioBState, acquireWith_not_raised _ _ _ _ _ _ hq0]
      simp [record_failure, RLState.init, dgetD, dget?, dset]
    rw [hst]
    have hfc : dgetD ([(("x.com".toList), 1)] : List (Str × Nat))
        ("x.com".toList) 0 = 1 := by simp [dgetD, dget?]
    have hlast : dgetD ([(("x.com".toList), t)] : List (Str × ℚ))
        ("x.com".toList) 0 = t := by simp [dgetD, dget?]
    have hmi : codeMinInterval scenarioBConfig 1 = 2 := by
      norm_num [codeMinInterval, scenarioBConfig, BACKOFF_CONFIG]
    simp only [hfc, hlast, hmi, sub_self]
    rw [if_pos (by norm_num)]
    simp [totalSleep]

/-- C6 witness: the formula evaluated for a fresh limiter, source kind
website, domain x.com at time 5, and scenario B at t = 0. -/
theorem acquire_wait_formula_witness :
    (totalSleep (acquire RLState.init ("website".toList) ("x.com".toList) 5 5).2.1 =
      max 0 (specMinInterval (lookupRateLimit ("website".toList))
        (dgetD RLState.init.failure_counts ("x.com".toList) 0) -
        (5 - dgetD RLState.init.last_request ("x.com".toList) 0))) ∧
    2 ≤ totalSleep (acquireWith (fun _ => scenarioBConfig) (scenarioBState 0)
      ("api".toList) ("x.com".toList) 0 0).2.1 :=
  ⟨(acquire_wait_formula.1 RLState.init ("website".toList) ("x.com".toList) 5 5
      (by decide)).1,
    acquire_wait_formula.2 0⟩

/-- C7: with everything but `failureCount[domain]` held fixed, the wait
`acquire` performs is monotonically non-decreasing in the failure count,
and (whenever the clock has not gone backwards past the stored
last-request time) is capped at `maxDelay`. -/
theorem acquire_wait_monotone (st : RLState) (kind domain : Str)
    (now now2 : ℚ) (n m : Nat) (hnm : n ≤ m) :
    totalSleep (acquire (setFailures st domain n) kind domain now now2).2.1 ≤
      totalSleep (acquire (setFailures st domain m) kind domain now now2).2.1 ∧
    (dgetD st.last_request domain 0 ≤ now →
      totalSleep (acquire (setFailures st domain n) kind domain now now2).2.1 ≤
        BACKOFF_CONFIG.max_delay) := by
  have hd : 0 ≤ (lookupRateLimit kind).delay_between_requests := by
    rcases lookupRateLimit_cases kind with h | h | h <;> rw [h] <;> norm_num
  by_cases hq : quotaHit lookupRateLimit (setFailures st domain n) kind
  · have hqm : quotaHit lookupRateLimit (setFailures st domain m) kind := by
      simpa [quotaHit, setFailures] using hq
    rw [acquire, acquireWith_raised _ _ _ _ _ _ hq,
      acquire, acquireWith_raised _ _ _ _ _ _ hqm]
    simp [totalSleep, BACKOFF_CONFIG]
  · have hqm : ¬ quotaHit lookupRateLimit (setFailures st domain m) kind := by
      simpa [quotaHit, setFailures] using hq
    rw [acquire, acquireWith_not_raised _ _ _ _ _ _ hq,
      acquire, acquireWith_not_raised _ _ _ _ _ _ hqm]
    simp only [totalSleep_branch, setFailures, dgetD_dset_self]
    have hmn : codeMinInterval (lookupRateLimit kind) n ≤
        codeMinInterval (lookupRateLimit kind) m := by
      rw [codeMinInterval_eq_spec _ _ hd, codeMinInterval_eq_spec _ _ hd]
      exact specMinInterval_mono _ hnm
    constructor
    · exact max_le_max (le_refl 0) (sub_le_sub_right hmn _)
    · intro hlast
      have h60 : codeMinInterval (lookupRateLimit kind) n ≤ 60 := by
        rw [codeMinInterval_eq_spec _ _ hd]
        exact specMinInterval_le_sixty kind n
      have he : 0 ≤ now - dgetD st.last_request domain 0 :=
        sub_nonneg.mpr hlast
      refine max_le (by norm_num [BACKOFF_CONFIG]) ?_
      calc codeMinInterval (lookupRateLimit kind) n -
            (now - dgetD st.last_request domain 0) ≤
          codeMinInterval (lookupRateLimit kind) n := sub_le_self _ he
        _ ≤ BACKOFF_CONFIG.max_delay := by
            simpa [BACKOFF_CONFIG] using h60

/-- C7 witness: a fresh limiter on source kind website, failure counts 0
and 1. -/
theorem acquire_wait_monotone_witness :
    totalSleep (acquire (setFailures RLState.init ("x.com".toList) 0)
        ("website".toList) ("x.com".toList) 0 0).2.1 ≤
      totalSleep (acquire (setFailures RLState.init ("x.com".toList) 1)
        ("website".toList) ("x.com".toList) 0 0).2.1 ∧
    totalSleep (acquire (setFailures RLState.init ("x.com".toList) 0)
        ("website".toList) ("x.com".toList) 0 0).2.1 ≤
      BACKOFF_CONFIG.max_delay := by
  have h := acquire_wait_monotone RLState.init ("website".toList)
    ("x.com".toList) 0 0 0 1 (by decide)
  exact ⟨h.1, h.2 (by simp [RLState.init, dgetD, dget?])⟩

/-! ## C3: `HttpClient.get` retry behaviour -/

/-- C3 counterexample: against a server that always answers HTTP 500 and
with `maxRetries = 3`, `get` does not raise at all — it returns the 500
response after exactly one attempt, with `record_failure` called exactly
once (the claim asserts an `HttpError` after 3 attempts and 3
`record_failure` calls). -/
theorem httpGet_always500_counterexample :
    (httpGet (fun _ => AttemptOutcome.response 500 []) 3).1 =
      .ok ⟨500, []⟩ ∧
    (httpGet (fun _ => AttemptOutcome.response 500 []) 3).2.attempts = 1 ∧
    (httpGet (fun _ => AttemptOutcome.response 500 []) 3).2.failures = 1 :=
  ⟨rfl, rfl, rfl⟩

/-- C3 (amended): per attempt, a 2xx response calls `record_success` and
is returned, a non-2xx response calls `record_failure` and is *returned
to the caller as well* (not retried); only network/timeout exceptions are
retried, each calling `record_failure`, so a server that always raises
exhausts `maxRetries = 3` with an `HttpError` after exactly 3 attempts
and 3 `record_failure` calls, while a server that always answers HTTP 500
yields a returned 500 response after exactly 1 attempt and 1
`record_failure` call. -/
theorem httpGet_classification :
    (∀ (server : Nat → AttemptOutcome) (remaining attempt : Nat)
        (calls : GetCalls) (status : Nat) (content : Str),
      server attempt = .response status content →
        (200 ≤ status → status < 300 →
          getLoop server (remaining + 1) attempt calls =
            (.ok ⟨status, content⟩,
              { calls with
                attempts := calls.attempts + 1
                successes := calls.successes + 1 })) ∧
        (¬ (200 ≤ status ∧ status < 300) →
          getLoop server (remaining + 1) attempt calls =
            (.ok ⟨status, content⟩,
              { calls with
                attempts := calls.attempts + 1
                failures := calls.failures + 1 }))) ∧
    (∀ server : Nat → AttemptOutcome,
      (∀ i, server i = .timeoutError ∨ server i = .clientError) →
        httpGet server 3 = (.error (), ⟨3, 0, 3, [1, 2]⟩)) ∧
    (∀ (server : Nat → AttemptOutcome) (status : Nat) (content : Str),
      server 0 = .response status content → ¬ (200 ≤ status ∧ status < 300) →
        httpGet server 3 = (.ok ⟨status, content⟩, ⟨1, 0, 1, []⟩)) := by
  refine ⟨?_, ?_, ?_⟩
  · intro server remaining attempt calls status content h
    constructor
    · intro h1 h2
      simp [getLoop, h, HttpResponseM.ok, h1, h2]
    · intro h12
      simp only [getLoop, h, HttpResponseM.ok]
      rw [if_neg (by simpa using h12)]
  · intro server h
    rcases h 0 with h0 | h0 <;> rcases h 1 with h1 | h1 <;>
      rcases h 2 with h2 | h2 <;>
      simp [httpGet, getLoop, h0, h1, h2, GetCalls.init]
  · intro server status content h0 hbad
    simp only [httpGet, getLoop, h0, HttpResponseM.ok, GetCalls.init]
    rw [if_neg (by simpa using hbad)]

/-- C3 witness: a server that always times out, with `maxRetries = 3`,
raises after 3 attempts, 3 failure records and inter-retry sleeps of 1
and 2 seconds. -/
theorem httpGet_classification_witness :
    httpGet (fun _ => AttemptOutcome.timeoutError) 3 =
      (.error (), ⟨3, 0, 3, [1, 2]⟩) :=
  httpGet_classification.2.1 _ (fun _ => Or.inl rfl)

/-! ## C8: the robots cache performs at most one fetch per TTL window -/

/-- Python `_get_entry` takes exactly one of three paths: a fresh memory-cache
hit (no state change, no fetch), a disk-cache hit (entry cached in
memory, no fetch), or a network fetch (entry cached in memory, one
fetch). -/
theorem getEntry_spec (net : Str → NetOutcome) (ttl : ℚ) (st : RobotsState)
    (url : Str) (now : ℚ) :
    (∃ e, dget? st.cache (urlDomain url) = some e ∧ now - e.fetched_at < ttl ∧
      getEntry net ttl st url now = (e, st, 0)) ∨
    (∃ e, load_from_disk ttl st (urlDomain url) now = some e ∧
      getEntry net ttl st url now =
        (e, { st with cache := dset st.cache (urlDomain url) e }, 0)) ∨
    (getEntry net ttl st url now =
      ((fetch_robots net st (urlDomain url) now).1,
        { (fetch_robots net st (urlDomain url) now).2 with
          cache := dset (fetch_robots net st (urlDomain url) now).2.cache
            (urlDomain url) (fetch_robots net st (urlDomain url) now).1 }, 1)) := by
  cases hc : dget? st.cache (urlDomain url) with
  | some e =>
    by_cases hf : now - e.fetched_at < ttl
    · exact Or.inl ⟨e, rfl, hf, by simp [getEntry, getEntryMiss, hc, hf]⟩
    · cases hd : load_from_disk ttl st (urlDomain url) now with
      | some e' =>
        exact Or.inr (Or.inl ⟨e', rfl, by simp [getEntry, getEntryMiss, hc, hf, hd]⟩)
      | none =>
        exact Or.inr (Or.inr (by simp [getEntry, getEntryMiss, hc, hf, hd]))
  | none =>
    cases hd : load_from_disk ttl st (urlDomain url) now with
    | some e' =>
      exact Or.inr (Or.inl ⟨e', rfl, by simp [getEntry, getEntryMiss, hc, hd]⟩)
    | none =>
      exact Or.inr (Or.inr (by simp [getEntry, getEntryMiss, hc, hd]))

/-- A fresh memory-cache entry answers `_get_entry` directly. -/
theorem getEntry_memory_hit (net : Str → NetOutcome) (ttl : ℚ)
    (s : RobotsState) (url : Str) (now : ℚ) (e : RobotsCacheEntry)
    (hc : dget? s.cache (urlDomain url) = some e)
    (hf : now - e.fetched_at < ttl) :
    getEntry net ttl s url now = (e, s, 0) := by
  simp [getEntry, hc, hf]

theorem getEntry_fetches_le_one (net : Str → NetOutcome) (ttl : ℚ)
    (st : RobotsState) (url : Str) (now : ℚ) :
    (getEntry net ttl st url now).2.2 ≤ 1 := by
  rcases getEntry_spec net ttl st url now with ⟨e, _, _, h⟩ | ⟨e, _, h⟩ | h <;>
    rw [h] <;> simp

theorem getEntry_cache_stores (net : Str → NetOutcome) (ttl : ℚ)
    (st : RobotsState) (url : Str) (now : ℚ) :
    dget? (getEntry net ttl st url now).2.1.cache (urlDomain url) =
      some (getEntry net ttl st url now).1 := by
  rcases getEntry_spec net ttl st url now with ⟨e, hc, _, h⟩ | ⟨e, _, h⟩ | h
  · rw [h]; simpa using hc
  · rw [h]; simp [dget?_dset_self]
  · rw [h]; simp [dget?_dset_self]

theorem fetch_robots_fetched_at (net : Str → NetOutcome) (st : RobotsState)
    (domain : Str) (now : ℚ) :
    (fetch_robots net st domain now).1.fetched_at = now := by
  unfold fetch_robots
  cases net domain <;> rfl

theorem getEntry_fetched_at (net : Str → NetOutcome) (ttl : ℚ)
    (st : RobotsState) (url : Str) (now : ℚ)
    (h1 : (getEntry net ttl st url now).2.2 = 1) :
    (getEntry net ttl st url now).1.fetched_at = now := by
  rcases getEntry_spec net ttl st url now with ⟨e, _, _, h⟩ | ⟨e, _, h⟩ | h <;>
    rw [h] at h1 ⊢ <;> simp at h1 ⊢
  exact fetch_robots_fetched_at net st (urlDomain url) now

/-- C8: with robots compliance on, two `can_fetch` calls for the same URL
whose times lie inside one TTL window perform at most one network fetch
between them; the first call always leaves the resolved entry in the
memory cache, and whenever that entry is still fresh at the second call,
the second call fetches nothing (this covers non-200 and error fetches,
whose allow-all entries are cached the same way); a fetch that got HTTP
200 also mirrors the body to the disk cache. -/
theorem canFetch_at_most_one_fetch (net : Str → NetOutcome)
    (decision : Str → Str → Str → Bool) (agent : Str) (ttl : ℚ)
    (st : RobotsState) (url : Str) (t t' : ℚ) (h2 : t' - t < ttl) :
    (canFetch net decision true agent ttl st url t).2.2 +
      (canFetch net decision true agent ttl
        (canFetch net decision true agent ttl st url t).2.1 url t').2.2 ≤ 1 ∧
    dget? (canFetch net decision true agent ttl st url t).2.1.cache
      (urlDomain url) = some (getEntry net ttl st url t).1 ∧
    (t' - (getEntry net ttl st url t).1.fetched_at < ttl →
      (canFetch net decision true agent ttl
        (canFetch net decision true agent ttl st url t).2.1 url t').2.2 = 0) ∧
    (∀ c, (canFetch net decision true agent ttl st url t).2.2 = 1 →
      net (urlDomain url) = .ok200 c →
      dget? (canFetch net decision true agent ttl st url t).2.1.disk
        (urlDomain url) = some (c, t)) := by
  have hproj : ∀ (s : RobotsState) (time : ℚ),
      (canFetch net decision true agent ttl s url time).2 =
        (getEntry net ttl s url time).2 := fun s time => rfl
  have hstore := getEntry_cache_stores net ttl st url t
  have hsecond : t' - (getEntry net ttl st url t).1.fetched_at < ttl →
      (getEntry net ttl (getEntry net ttl st url t).2.1 url t').2.2 = 0 := by
    intro hf
    rw [getEntry_memory_hit net ttl (getEntry net ttl st url t).2.1 url t'
      (getEntry net ttl st url t).1 hstore hf]
  constructor
  · simp only [hproj]
    by_cases hf : t' - (getEntry net ttl st url t).1.fetched_at < ttl
    · rw [hsecond hf]
      have := getEntry_fetches_le_one net ttl st url t
      omega
    · have hz : (getEntry net ttl st url t).2.2 = 0 := by
        rcases Nat.lt_or_ge (getEntry net ttl st url t).2.2 1 with h | h
        · omega
        · exfalso
          have hone : (getEntry net ttl st url t).2.2 = 1 := by
            have := getEntry_fetches_le_one net ttl st url t
            omega
          rw [getEntry_fetched_at net ttl st url t hone] at hf
          exact hf h2
      rw [hz]
      have := getEntry_fetches_le_one net ttl
        (getEntry net ttl st url t).2.1 url t'
      omega
  refine ⟨by simp only [hproj]; exact hstore, ?_, ?_⟩
  · intro hf
    simp only [hproj]
    exact hsecond hf
  · intro c hone hnet
    simp only [hproj] at hone ⊢
    rcases getEntry_spec net ttl st url t with ⟨e, _, _, h⟩ | ⟨e, _, h⟩ | h <;>
      rw [h] at hone ⊢ <;> simp at hone ⊢
    simp [fetch_robots, hnet, dget?_dset_self]

/-- C8 witness: a fresh checker asked twice for the same URL one second
apart with a 24-hour TTL fetches at most once. -/
theorem canFetch_at_most_one_fetch_witness :
    (canFetch (fun _ => NetOutcome.ok200 []) (fun _ _ _ => true) true
        ("bot".toList) 86400 RobotsState.init ("https://x.com/a".toList) 0).2.2 +
      (canFetch (fun _ => NetOutcome.ok200 []) (fun _ _ _ => true) true
        ("bot".toList) 86400
        (canFetch (fun _ => NetOutcome.ok200 []) (fun _ _ _ => true) true
          ("bot".toList) 86400 RobotsState.init
          ("https://x.com/a".toList) 0).2.1
        ("https://x.com/a".toList) 1).2.2 ≤ 1 :=
  (canFetch_at_most_one_fetch (fun _ => NetOutcome.ok200 []) (fun _ _ _ => true)
    ("bot".toList) 86400 RobotsState.init ("https://x.com/a".toList) 0 1
    (by simp)).1

/-- C2: the claim fails on the code. `merge` selects its base by a Python
`>` comparison of the two highest-priority provenance `.value` strings —
a lexicographic string comparison — rather than of the numeric
priorities. Here the incoming record's maximum SourcePriority (3,
GOOGLE_MAPS) strictly exceeds the existing record's (2, WEBSITE), and the
incoming name is non-empty, yet the merged name is the existing one,
because `"GOOGLE_MAPS" > "WEBSITE"` is false lexicographically. -/
theorem merge_priority_code_bug :
    maxSourcePriority mergeBugExisting < maxSourcePriority mergeBugIncoming ∧
    mergeBugIncoming.name ≠ [] ∧
    (merge mergeBugExisting mergeBugIncoming).toOption.map ScrapedProvider.name =
      some mergeBugExisting.name ∧
    mergeBugExisting.name ≠ mergeBugIncoming.name :=
  ⟨by decide, by decide, rfl, by decide⟩

theorem pyGT_error_typeError (a b : PyVal) (er : PyError)
    (h : pyGT a b = .error er) : er = .typeError := by
  cases a <;> cases b <;> simp [pyGT] at h <;> exact h.symm

theorem merge_isOk_or_typeError (e p : ScrapedProvider) :
    (∃ m, merge e p = .ok m) ∨ merge e p = .error .typeError := by
  simp only [merge]
  cases hg : pyGT (sourcePriorityVal p.sources) (sourcePriorityVal e.sources) with
  | error e' =>
    have het := pyGT_error_typeError _ _ _ hg
    subst het
    right
    simp
  | ok g =>
    left
    exact ⟨_, rfl⟩

theorem mergeAt_no_keyError (st : Dedup) (ek : Str) (p : ScrapedProvider)
    (hek : dcontains st.index ek) :
    mergeAt st ek p ≠ .error .keyError := by
  unfold mergeAt
  cases hg : dget? st.index ek with
  | none => simp [dcontains, hg] at hek
  | some ex =>
    rcases merge_isOk_or_typeError ex p with ⟨m, hm⟩ | hm <;>
      simp [hm, Except.map]

theorem mergeAt_ok_shape (st : Dedup) (ek : Str) (p : ScrapedProvider)
    (b : Bool) (m : ScrapedProvider) (st2 : Dedup)
    (h : mergeAt st ek p = .ok (b, m, st2)) :
    b = false ∧ ∃ ex, dget? st.index ek = some ex ∧ merge ex p = .ok m ∧
      st2 = { st with index := dset st.index ek m } := by
  unfold mergeAt at h
  split at h
  · next ex heq =>
    cases hm : merge ex p with
    | error e' => rw [hm] at h; simp [Except.map] at h
    | ok m' =>
      rw [hm] at h
      simp only [Except.map] at h
      injection h with h'
      injection h' with hb h''
      injection h'' with hm' hst
      subst hm'
      exact ⟨hb.symm, ex, heq, hm, hst.symm⟩
  · simp at h

theorem phoneHitKey_some {st : Dedup} {p : ScrapedProvider} {ek : Str}
    (h : phoneHitKey st p = some ek) :
    ∃ ph, p.phone = some ph ∧ dget? st.phone_index ph = some ek := by
  unfold phoneHitKey at h
  split at h
  · next ph heq =>
    split at h
    · simp at h
    · exact ⟨ph, heq, h⟩
  · simp at h

theorem urlHitKey_some {st : Dedup} {p : ScrapedProvider} {ek : Str}
    (h : urlHitKey st p = some ek) :
    ∃ u, p.website_url = some u ∧ dget? st.url_index u = some ek := by
  unfold urlHitKey at h
  split at h
  · next u heq =>
    split at h
    · simp at h
    · exact ⟨u, heq, h⟩
  · simp at h

theorem add_no_keyError (st : Dedup) (p : ScrapedProvider)
    (hinv : DedupInv st) : st.add p ≠ .error .keyError := by
  simp only [Dedup.add]
  split
  · next ex heq => exact mergeAt_no_keyError st _ p (dcontains_of_dget?_eq_some heq)
  · split
    · next ek heq2 =>
      obtain ⟨ph, _, hidx⟩ := phoneHitKey_some heq2
      exact mergeAt_no_keyError st ek p (hinv.1 ph ek hidx)
    · split
      · next ek heq3 =>
        obtain ⟨u, _, hidx⟩ := urlHitKey_some heq3
        exact mergeAt_no_keyError st ek p (hinv.2 u ek hidx)
      · simp

/-- Exhaustive shape of a successful `add`: either one of the three
duplicate branches merged in place (`is_new = false`), or the record was
inserted as new under its own identity key (`is_new = true`). -/
theorem add_ok_shape (st : Dedup) (p : ScrapedProvider) (b : Bool)
    (m : ScrapedProvider) (st2 : Dedup) (h : st.add p = .ok (b, m, st2)) :
    (b = false ∧ ∃ ek ex, dget? st.index ek = some ex ∧ merge ex p = .ok m ∧
      st2 = { st with index := dset st.index ek m }) ∨
    (b = true ∧ m = p ∧
      dget? st.index (generate_provider_key p.name p.address p.city) = none ∧
      st2 = registerNew st (generate_provider_key p.name p.address p.city) p) := by
  simp only [Dedup.add] at h
  split at h
  · rcases mergeAt_ok_shape _ _ _ _ _ _ h with ⟨hb, ex, hex, hm, hst⟩
    exact Or.inl ⟨hb, _, ex, hex, hm, hst⟩
  · next hnone =>
    split at h
    · rcases mergeAt_ok_shape _ _ _ _ _ _ h with ⟨hb, ex, hex, hm, hst⟩
      exact Or.inl ⟨hb, _, ex, hex, hm, hst⟩
    · split at h
      · rcases mergeAt_ok_shape _ _ _ _ _ _ h with ⟨hb, ex, hex, hm, hst⟩
        exact Or.inl ⟨hb, _, ex, hex, hm, hst⟩
      · injection h with h'
        injection h' with hb h''
        injection h'' with hm hst
        exact Or.inr ⟨hb.symm, hm.symm, hnone, hst.symm⟩

theorem DedupInv_set_index (st : Dedup) (ek : Str) (m : ScrapedProvider)
    (hinv : DedupInv st) :
    DedupInv { st with index := dset st.index ek m } := by
  obtain ⟨hp, hu⟩ := hinv
  constructor
  · intro ph k h
    rw [dcontains_dset]
    exact Or.inl (hp ph k h)
  · intro u k h
    rw [dcontains_dset]
    exact Or.inl (hu u k h)

theorem DedupInv_registerNew (st : Dedup) (key : Str) (p : ScrapedProvider)
    (hinv : DedupInv st) : DedupInv (registerNew st key p) := by
  obtain ⟨hp, hu⟩ := hinv
  constructor
  · intro ph k h
    simp only [registerNew] at h ⊢
    rw [dcontains_dset]
    split at h
    · next s heq =>
      split at h
      · exact Or.inl (hp ph k h)
      · by_cases hsp : s = ph
        · subst hsp
          rw [dget?_dset_self] at h
          injection h with h'
          exact Or.inr h'
        · rw [dget?_dset_ne _ _ _ _ hsp] at h
          exact Or.inl (hp ph k h)
    · exact Or.inl (hp ph k h)
  · intro u k h
    simp only [registerNew] at h ⊢
    rw [dcontains_dset]
    split at h
    · next s heq =>
      split at h
      · exact Or.inl (hu u k h)
      · by_cases hsu : s = u
        · subst hsu
          rw [dget?_dset_self] at h
          injection h with h'
          exact Or.inr h'
        · rw [dget?_dset_ne _ _ _ _ hsu] at h
          exact Or.inl (hu u k h)
    · exact Or.inl (hu u k h)

theorem except_bind_ok {α β : Type} (a : α)
    (f : α → Except PyError β) : (Except.ok a >>= f) = f a := rfl

theorem except_ok_of_no_error {α : Type} (x : Except PyError α)
    (h : ∀ e, x ≠ .error e) : ∃ l, x = .ok l := by
  cases x with
  | error e => exact absurd rfl (h e)
  | ok l => exact ⟨l, rfl⟩

theorem find_duplicates_isOk (st : Dedup) (p : ScrapedProvider)
    (hinv : DedupInv st) : ∃ l, st.find_duplicates p = .ok l := by
  simp only [Dedup.find_duplicates]
  split
  · exact ⟨_, rfl⟩
  · cases hph : phoneHitKey st p with
    | some ek =>
      obtain ⟨ph, _, hidx⟩ := phoneHitKey_some hph
      have hc := hinv.1 ph ek hidx
      obtain ⟨ex, hex⟩ : ∃ ex, dget? st.index ek = some ex := by
        cases hg : dget? st.index ek with
        | none => simp [dcontains, hg] at hc
        | some ex => exact ⟨ex, rfl⟩
      cases hu : urlHitKey st p with
      | some ek2 =>
        obtain ⟨u, _, hidx2⟩ := urlHitKey_some hu
        have hc2 := hinv.2 u ek2 hidx2
        obtain ⟨ex2, hex2⟩ : ∃ ex2, dget? st.index ek2 = some ex2 := by
          cases hg : dget? st.index ek2 with
          | none => simp [dcontains, hg] at hc2
          | some ex2 => exact ⟨ex2, rfl⟩
        exact except_ok_of_no_error _ (fun e => by simp [hph, hex, hu, hex2, except_bind_ok, pure, Except.pure])
      | none => exact except_ok_of_no_error _ (fun e => by simp [hph, hex, hu, except_bind_ok, pure, Except.pure])
    | none =>
      cases hu : urlHitKey st p with
      | some ek2 =>
        obtain ⟨u, _, hidx2⟩ := urlHitKey_some hu
        have hc2 := hinv.2 u ek2 hidx2
        obtain ⟨ex2, hex2⟩ : ∃ ex2, dget? st.index ek2 = some ex2 := by
          cases hg : dget? st.index ek2 with
          | none => simp [dcontains, hg] at hc2
          | some ex2 => exact ⟨ex2, rfl⟩
        exact except_ok_of_no_error _ (fun e => by simp [hph, hu, hex2, except_bind_ok, pure, Except.pure])
      | none => exact except_ok_of_no_error _ (fun e => by simp [hph, hu, except_bind_ok, pure, Except.pure])

/-- C9: in any state satisfying the index-consistency invariant — every
value of the phone index and of the URL index is a key of the main store
— `add` never hits a missing key, `find_duplicates` returns normally
(every phone or URL hit resolves to an existing canonical record), and
`add` and `clear` preserve the invariant. -/
theorem dedup_index_consistency (st : Dedup) (p : ScrapedProvider)
    (hinv : DedupInv st) :
    st.add p ≠ .error PyError.keyError ∧
    (∃ l, st.find_duplicates p = .ok l) ∧
    (∀ b m st2, st.add p = .ok (b, m, st2) → DedupInv st2) ∧
    DedupInv (st.clear) := by
  refine ⟨add_no_keyError st p hinv, find_duplicates_isOk st p hinv, ?_, ?_⟩
  · intro b m st2 h
    rcases add_ok_shape st p b m st2 h with
      ⟨_, ek, ex, _, _, hst⟩ | ⟨_, _, _, hst⟩
    · rw [hst]
      exact DedupInv_set_index st ek _ hinv
    · rw [hst]
      exact DedupInv_registerNew st _ p hinv
  · constructor <;> intro x k h <;> simp [Dedup.clear, dget?] at h

/-- C9 witness: the empty deduplicator satisfies the invariant and adding
one concrete record neither errs nor breaks it. -/
theorem dedup_index_consistency_witness :
    Dedup.init.add mergeBugExisting ≠ .error PyError.keyError ∧
    (∃ l, Dedup.init.find_duplicates mergeBugExisting = .ok l) :=
  ⟨(dedup_index_consistency Dedup.init mergeBugExisting
      ⟨fun _ _ h => by simp [Dedup.init, dget?] at h,
        fun _ _ h => by simp [Dedup.init, dget?] at h⟩).1,
    (dedup_index_consistency Dedup.init mergeBugExisting
      ⟨fun _ _ h => by simp [Dedup.init, dget?] at h,
        fun _ _ h => by simp [Dedup.init, dget?] at h⟩).2.1⟩

/-- C10: a successful `add` returns `is_new = true` exactly when it grows
`count()` by one; a merge (`is_new = false`) leaves `count()` unchanged
and keeps every previously registered identity key in the store. -/
theorem dedup_add_count (st : Dedup) (p : ScrapedProvider) (b : Bool)
    (m : ScrapedProvider) (st2 : Dedup) (h : st.add p = .ok (b, m, st2)) :
    (b = true ↔ st2.count = st.count + 1) ∧
    (b = false → st2.count = st.count ∧
      ∀ k, dcontains st.index k → dcontains st2.index k) := by
  rcases add_ok_shape st p b m st2 h with
    ⟨hb, ek, ex, hex, _, hst⟩ | ⟨hb, _, hnone, hst⟩
  · subst hb
    subst hst
    have hcont : dcontains st.index ek := dcontains_of_dget?_eq_some hex
    have hlen : (dset st.index ek m).length = st.index.length :=
      length_dset_of_contains _ _ _ hcont
    constructor
    · constructor
      · intro hh; exact absurd hh (by simp)
      · intro hcount
        exfalso
        simp [Dedup.count, hlen] at hcount
    · intro _
      refine ⟨by simp [Dedup.count, hlen], ?_⟩
      intro k hk
      rw [dcontains_dset]
      exact Or.inl hk
  · subst hb
    subst hst
    have hnc : ¬ dcontains st.index
        (generate_provider_key p.name p.address p.city) := by
      simp [dcontains, hnone]
    constructor
    · simp [Dedup.count, registerNew, length_dset_of_not_contains _ _ _ hnc]
    · intro hh; exact absurd hh (by simp)

/-- C10 witness: adding one record to the empty deduplicator returns
`is_new = true` and grows the count from 0 to 1. -/
theorem dedup_add_count_witness :
    true = true ↔
      (registerNew Dedup.init
        (generate_provider_key mergeBugExisting.name mergeBugExisting.address
          mergeBugExisting.city) mergeBugExisting).count =
        Dedup.init.count + 1 :=
  (dedup_add_count Dedup.init mergeBugExisting true mergeBugExisting
    (registerNew Dedup.init
      (generate_provider_key mergeBugExisting.name mergeBugExisting.address
        mergeBugExisting.city) mergeBugExisting) rfl).1

/-- C1 counterexample: feeding scenario A's three records through `add`
in order leaves two canonical records, not one — the exact-key merge of
record 2 never registers its phone in the phone index, so record 3 misses
every index and is inserted as new. -/
theorem scenarioA_counterexample :
    (Dedup.addAll Dedup.init [scenarioA1, scenarioA2, scenarioA3]).map
      Dedup.count = .ok 2 ∧
    (Dedup.addAll Dedup.init [scenarioA1, scenarioA2, scenarioA3]).map
      Dedup.count ≠ .ok 1 := by
  refine ⟨rfl, fun h => ?_⟩
  rw [show (Dedup.addAll Dedup.init [scenarioA1, scenarioA2, scenarioA3]).map
    Dedup.count = .ok 2 from rfl] at h
  simp at h

/-- C1 (amended): when the incoming record's identity key misses
`byIdentityKey` but its phone hits the phone index, `add` merges into the
hit's record and returns `(false, merged)` — but it does *not* insert the
incoming record's IdentityKey into `byIdentityKey`. Because the
exact-key branch likewise registers nothing new, scenario A ends with two
canonical records: records 1–2 merge under record 1's key (phone
"+13051234567" present on the merged record), while record 3 — whose
phone was never indexed by record 2's exact-key merge — is inserted as a
separate new record, and `byIdentityKey` holds two distinct keys pointing
at two distinct records. -/
theorem add_phone_match_no_key_insert :
    (∀ (st : Dedup) (p : ScrapedProvider) (ek : Str) (ex m : ScrapedProvider),
      dget? st.index (generate_provider_key p.name p.address p.city) = none →
      phoneHitKey st p = some ek →
      dget? st.index ek = some ex →
      merge ex p = .ok m →
      st.add p = .ok (false, m, { st with index := dset st.index ek m }) ∧
      dget? (dset st.index ek m)
        (generate_provider_key p.name p.address p.city) = none) ∧
    (Dedup.addAll Dedup.init [scenarioA1, scenarioA2, scenarioA3]).map
      (fun st => (st.count, st.index.map (fun kv => (kv.2.name, kv.2.phone)))) =
      .ok (2, [(("Test Spa".toList), some ("+13051234567".toList)),
        (("Test Spa Wellness".toList), some ("+13051234567".toList))]) := by
  constructor
  · intro st p ek ex m hkey hph hex hm
    constructor
    · simp [Dedup.add, hkey, hph, mergeAt, hex, hm, Except.map]
    · have hne : ek ≠ generate_provider_key p.name p.address p.city := by
        intro he
        rw [he, hkey] at hex
        exact Option.noConfusion hex
      rw [dget?_dset_ne _ _ _ _ hne, hkey]
  · rfl

/-- C1 witness: adding `phoneDup2` to that state takes the phone branch,
merges into `phoneDup1`'s entry, and leaves `phoneDup2`'s identity key
out of the store. -/
theorem add_phone_match_no_key_insert_witness :
    Dedup.add c1WitnessState phoneDup2 = .ok (false, phoneDup1,
      { c1WitnessState with
        index := dset c1WitnessState.index
          (generate_provider_key phoneDup1.name phoneDup1.address
            phoneDup1.city) phoneDup1 }) ∧
    dget? (dset c1WitnessState.index
        (generate_provider_key phoneDup1.name phoneDup1.address phoneDup1.city)
        phoneDup1)
      (generate_provider_key phoneDup2.name phoneDup2.address phoneDup2.city) =
      none :=
  add_phone_match_no_key_insert.1 c1WitnessState phoneDup2
    (generate_provider_key phoneDup1.name phoneDup1.address phoneDup1.city)
    phoneDup1 phoneDup1 rfl rfl rfl rfl

theorem mem_of_mem_dropWhile {p : Char → Bool} {c : Char} :
    ∀ {l : Str}, c ∈ l.dropWhile p → c ∈ l := by
  intro l
  induction l with
  | nil => simp [List.dropWhile]
  | cons d t ih =>
    by_cases hd : p d
    · intro h
      rw [List.dropWhile_cons, if_pos hd] at h
      exact List.mem_cons_of_mem _ (ih h)
    · intro h
      rw [List.dropWhile_cons, if_neg hd] at h
      exact h

theorem dropWhile_append_all {p : Char → Bool} (a x : Str)
    (ha : ∀ c ∈ a, p c) : (a ++ x).dropWhile p = x.dropWhile p := by
  induction a with
  | nil => rfl
  | cons c t ih =>
    rw [List.cons_append, List.dropWhile_cons, if_pos (ha c (by simp))]
    exact ih (fun d hd => ha d (by simp [hd]))

theorem dropWhile_eq_nil_of_all {p : Char → Bool} (l : Str)
    (h : ∀ c ∈ l, p c) : l.dropWhile p = [] := by
  induction l with
  | nil => rfl
  | cons c t ih =>
    rw [List.dropWhile_cons, if_pos (h c (by simp))]
    exact ih (fun d hd => h d (by simp [hd]))

theorem trimLeft_append_all (a x : Str) (ha : ∀ c ∈ a, isPySpace c) :
    trimLeft (a ++ x) = trimLeft x := dropWhile_append_all a x ha

theorem trimRight_append_all (x b : Str) (hb : ∀ c ∈ b, isPySpace c) :
    trimRight (x ++ b) = trimRight x := by
  unfold trimRight
  rw [List.reverse_append,
    dropWhile_append_all _ _ (fun c hc => hb c (List.mem_reverse.mp hc))]

theorem trimRight_eq_nil_of_all (l : Str) (h : ∀ c ∈ l, isPySpace c) :
    trimRight l = [] := by
  unfold trimRight
  rw [dropWhile_eq_nil_of_all _ (fun c hc => h c (List.mem_reverse.mp hc))]
  rfl

theorem trimLeft_append_cases (x b : Str) :
    trimLeft (x ++ b) =
      (if trimLeft x = [] then trimLeft b else trimLeft x ++ b) := by
  induction x with
  | nil => simp [trimLeft]
  | cons c t ih =>
    by_cases hc : isPySpace c
    · simp only [List.cons_append, trimLeft, List.dropWhile_cons, if_pos hc]
      exact ih
    · simp [trimLeft, List.dropWhile_cons, hc]

theorem trim_append_all (a x b : Str) (ha : ∀ c ∈ a, isPySpace c)
    (hb : ∀ c ∈ b, isPySpace c) : trim (a ++ x ++ b) = trim x := by
  unfold trim
  rw [List.append_assoc, trimLeft_append_all a (x ++ b) ha,
    trimLeft_append_cases x b]
  by_cases hx : trimLeft x = []
  · rw [if_pos hx, hx,
      trimRight_eq_nil_of_all (trimLeft b)
        (fun c hc => hb c (mem_of_mem_dropWhile hc))]
    simp [trimRight]
  · rw [if_neg hx]
    exact trimRight_append_all _ b hb

theorem exists_trim_decomp (l : Str) :
    ∃ a b, (∀ c ∈ a, isPySpace c) ∧ (∀ c ∈ b, isPySpace c) ∧
      l = a ++ trim l ++ b := by
  refine ⟨l.takeWhile isPySpace,
    ((trimLeft l).reverse.takeWhile isPySpace).reverse,
    fun c hc => List.mem_takeWhile_imp hc,
    fun c hc => List.mem_takeWhile_imp (List.mem_reverse.mp hc), ?_⟩
  have h2 : trimLeft l =
      trim l ++ ((trimLeft l).reverse.takeWhile isPySpace).reverse := by
    unfold trim trimRight
    rw [← List.reverse_append, List.takeWhile_append_dropWhile,
      List.reverse_reverse]
  rw [List.append_assoc, ← h2, trimLeft]
  exact (List.takeWhile_append_dropWhile _ _).symm

theorem filterWordSpace_append_all (a x b : Str)
    (ha : ∀ c ∈ a, isPySpace c) (hb : ∀ c ∈ b, isPySpace c) :
    filterWordSpace (a ++ x ++ b) = a ++ filterWordSpace x ++ b := by
  have hfa : filterWordSpace a = a :=
    List.filter_eq_self.mpr (fun c hc => by simp [ha c hc])
  have hfb : filterWordSpace b = b :=
    List.filter_eq_self.mpr (fun c hc => by simp [hb c hc])
  unfold filterWordSpace at hfa hfb ⊢
  rw [List.filter_append, List.filter_append, hfa, hfb]

theorem trim_filterWordSpace_congr {l1 l2 : Str} (h : trim l1 = trim l2) :
    trim (filterWordSpace l1) = trim (filterWordSpace l2) := by
  obtain ⟨a1, b1, ha1, hb1, hd1⟩ := exists_trim_decomp l1
  obtain ⟨a2, b2, ha2, hb2, hd2⟩ := exists_trim_decomp l2
  calc trim (filterWordSpace l1)
      = trim (filterWordSpace (a1 ++ trim l1 ++ b1)) := by rw [← hd1]
    _ = trim (a1 ++ filterWordSpace (trim l1) ++ b1) := by
        rw [filterWordSpace_append_all _ _ _ ha1 hb1]
    _ = trim (filterWordSpace (trim l1)) := trim_append_all _ _ _ ha1 hb1
    _ = trim (filterWordSpace (trim l2)) := by rw [h]
    _ = trim (a2 ++ filterWordSpace (trim l2) ++ b2) :=
        (trim_append_all _ _ _ ha2 hb2).symm
    _ = trim (filterWordSpace (a2 ++ trim l2 ++ b2)) := by
        rw [filterWordSpace_append_all _ _ _ ha2 hb2]
    _ = trim (filterWordSpace l2) := by rw [← hd2]

theorem length_flatten_byteToHex (bs : List Nat) :
    ((bs.map byteToHex).flatten).length = 2 * bs.length := by
  induction bs with
  | nil => rfl
  | cons b t ih =>
    simp only [List.map_cons, List.flatten_cons, List.length_append, ih,
      byteToHex, List.length_cons, List.length_nil]
    omega

theorem length_hash8Bytes (hv : Hash8) : (hash8Bytes hv).length = 32 := rfl

theorem length_sha256Hex (s : Str) : (sha256Hex s).length = 64 := by
  unfold sha256Hex
  rw [length_flatten_byteToHex, length_hash8Bytes]

theorem length_generate_provider_key (n a c : Str) :
    (generate_provider_key n a c).length = 16 := by
  unfold generate_provider_key
  rw [List.length_take, length_sha256Hex]
  omega

/-- Python `sourcePriorityVal` of a non-empty provenance list is a string. -/
theorem sourcePriorityVal_cons (s : ScrapedSource) (t : List ScrapedSource) :
    ∃ v, sourcePriorityVal (s :: t) = .str v := ⟨_, rfl⟩

theorem merge_error_imp_pyGT_error (r1 r2 : ScrapedProvider) (e : PyError)
    (h : merge r1 r2 = .error e) :
    pyGT (sourcePriorityVal r2.sources) (sourcePriorityVal r1.sources) =
      .error e := by
  simp only [merge] at h
  split at h
  · next e' heq =>
    injection h with h'
    subst h'
    exact heq
  · exact absurd h (by simp)

/-- Python `merge` succeeds whenever both records have provenance of the same
emptiness (the only failure is the `int`/`str` TypeError). -/
theorem merge_ok_of_sources_iff (r1 r2 : ScrapedProvider)
    (hsrc : r1.sources = [] ↔ r2.sources = []) :
    ∃ m, merge r1 r2 = .ok m := by
  rcases merge_isOk_or_typeError r1 r2 with h | h
  · exact h
  · exfalso
    have hp := merge_error_imp_pyGT_error r1 r2 _ h
    rcases h1 : r1.sources with _ | ⟨s1, t1⟩ <;>
      rcases h2 : r2.sources with _ | ⟨s2, t2⟩
    · rw [h1, h2] at hp
      simp [sourcePriorityVal, maxByPriorityKey, pyGT] at hp
    · rw [h1] at hsrc
      simp [h2] at hsrc
    · rw [h2] at hsrc
      simp [h1] at hsrc
    · obtain ⟨v1, hv1⟩ := sourcePriorityVal_cons s1 t1
      obtain ⟨v2, hv2⟩ := sourcePriorityVal_cons s2 t2
      rw [h1, h2, hv1, hv2] at hp
      simp [pyGT] at hp

/-- C4 counterexample: two records whose names are identical up to
whitespace differences (an inner double space versus a single space)
produce *different* identity keys, and `add` on the second record returns
`is_new = true` — two records, no merge. -/
theorem key_inner_whitespace_counterexample :
    collapseWs (trim (lower c4DoubleSpace.name)) =
      collapseWs (trim (lower c4SingleSpace.name)) ∧
    c4DoubleSpace.address = c4SingleSpace.address ∧
    c4DoubleSpace.city = c4SingleSpace.city ∧
    generate_provider_key c4DoubleSpace.name c4DoubleSpace.address
        c4DoubleSpace.city ≠
      generate_provider_key c4SingleSpace.name c4SingleSpace.address
        c4SingleSpace.city ∧
    (Dedup.addAll Dedup.init [c4DoubleSpace, c4SingleSpace]).map Dedup.count =
      .ok 2 :=
  ⟨rfl, rfl, rfl, by decide, rfl⟩

/-- C4 (amended): for records whose name, address and city agree up to
casing and leading/trailing whitespace (inner whitespace runs must
agree), `generate_provider_key` produces the same deterministic
16-character key, and — provided the two records' provenance lists are
empty or non-empty together, so the merge comparison is well-typed —
`add` on the second record after the first was inserted as new returns
`is_new = false`. Inner whitespace differences, by contrast, can produce
distinct keys. -/
theorem key_equal_up_to_case_and_edges :
    (∀ r1 r2 : ScrapedProvider,
      trim (lower r1.name) = trim (lower r2.name) →
      trim (lower r1.address) = trim (lower r2.address) →
      trim (lower r1.city) = trim (lower r2.city) →
      generate_provider_key r1.name r1.address r1.city =
        generate_provider_key r2.name r2.address r2.city ∧
      (generate_provider_key r1.name r1.address r1.city).length = 16) ∧
    (∀ (st : Dedup) (r1 r2 q : ScrapedProvider) (st1 : Dedup),
      trim (lower r1.name) = trim (lower r2.name) →
      trim (lower r1.address) = trim (lower r2.address) →
      trim (lower r1.city) = trim (lower r2.city) →
      (r1.sources = [] ↔ r2.sources = []) →
      st.add r1 = .ok (true, q, st1) →
      ∃ m st2, st1.add r2 = .ok (false, m, st2)) := by
  have hkeycongr : ∀ r1 r2 : ScrapedProvider,
      trim (lower r1.name) = trim (lower r2.name) →
      trim (lower r1.address) = trim (lower r2.address) →
      trim (lower r1.city) = trim (lower r2.city) →
      generate_provider_key r1.name r1.address r1.city =
        generate_provider_key r2.name r2.address r2.city := by
    intro r1 r2 hn ha hc
    simp only [generate_provider_key, normalize_address,
      trim_filterWordSpace_congr hn, ha, hc]
  constructor
  · intro r1 r2 hn ha hc
    exact ⟨hkeycongr r1 r2 hn ha hc, length_generate_provider_key _ _ _⟩
  · intro st r1 r2 q st1 hn ha hc hsrc hadd
    rcases add_ok_shape st r1 _ _ _ hadd with ⟨hb, _⟩ | ⟨_, _, _, hst1⟩
    · exact absurd hb (by simp)
    · subst hst1
      have hkeys := hkeycongr r1 r2 hn ha hc
      have hidx : dget?
          (registerNew st
            (generate_provider_key r1.name r1.address r1.city) r1).index
          (generate_provider_key r2.name r2.address r2.city) = some r1 := by
        simp [registerNew, ← hkeys, dget?_dset_self]
      obtain ⟨m, hm⟩ := merge_ok_of_sources_iff r1 r2 hsrc
      refine ⟨m,
        { registerNew st (generate_provider_key r1.name r1.address r1.city) r1
          with
          index := dset (registerNew st
            (generate_provider_key r1.name r1.address r1.city) r1).index
            (generate_provider_key r2.name r2.address r2.city) m }, ?_⟩
      simp [Dedup.add, hidx, mergeAt, hm, Except.map]

/-- C4 witness: scenario A's records 1 and 2 differ only in casing;
their keys agree, are 16 characters long, and the second `add` merges. -/
theorem key_equal_up_to_case_and_edges_witness :
    (generate_provider_key scenarioA1.name scenarioA1.address scenarioA1.city =
      generate_provider_key scenarioA2.name scenarioA2.address scenarioA2.city ∧
      (generate_provider_key scenarioA1.name scenarioA1.address
        scenarioA1.city).length = 16) ∧
    ∃ m st2,
      (registerNew Dedup.init
        (generate_provider_key scenarioA1.name scenarioA1.address
          scenarioA1.city) scenarioA1).add scenarioA2 = .ok (false, m, st2) :=
  ⟨key_equal_up_to_case_and_edges.1 scenarioA1 scenarioA2 (by decide)
      (by decide) (by decide),
    key_equal_up_to_case_and_edges.2 Dedup.init scenarioA1 scenarioA2
      scenarioA1 _ (by decide) (by decide) (by decide) (by simp [scenarioA1,
        scenarioA2, baseProvider]) rfl⟩

end OpenSlots
